import Mathlib

/-
  Verification of the temporal dynamic macro engine
  (src/temporal_dynamic_macro.c, src/temporal_dynamic_macro.h,
   src/custom_keycodes.h).

  Shallow embedding: the global mutable state of the C file becomes the
  structure TDMState; each C function becomes a Lean function
  TDMState -> TDMState.  Pointers into MACRO_buffers become Int offsets from
  the start of the shared buffer row (TDM_NUM_MACROS = 2, so there is exactly
  one row).  Memory is modelled as a total function Int -> Keypress so that
  out-of-bounds accesses of the C code are observable in the model instead of
  being undefined behaviour.  machine integers: flags is uint8, delay is
  uint32, the selection counter is uint8; overflow is modelled with explicit
  mod.  External QMK facts (SAFE_RANGE, the layer-key ranges, the user
  validity hook) are configuration parameters, since the spec places keycode
  classification outside the core.
-/

namespace TDM

/-- One recorded event: keycode, trailing delay in ms, flag bitmask
(models tdm_keypress_t). -/
@[ext] structure Keypress where
  keycode : Nat
  delay_ms : Nat
  flags : Nat
deriving DecidableEq

/-- FLAG_pressed = 1u. -/
def FLAG_pressed : Nat := 1

/-- set_flag: keypress.flags ^= (flag & -is_set) ^ (keypress.flags & flag).
On uint8, -true is 0xFF and -false is 0. -/
def set_flag (kp : Keypress) (flag : Nat) (b : Bool) : Keypress :=
  { kp with flags := kp.flags ^^^ ((flag &&& (if b then 255 else 0)) ^^^ (kp.flags &&& flag)) }

/-- is_set: (bool)(keypress.flags & flag). -/
def is_set (kp : Keypress) (flag : Nat) : Bool :=
  decide (kp.flags &&& flag ≠ 0)

/-- clear_flags: keypress.flags = 0. -/
def clear_flags (kp : Keypress) : Keypress :=
  { kp with flags := 0 }

/-- Build-time configuration and the externally supplied keycode
classification (out of scope for the core, per the spec). -/
structure TDMConfig where
  bufferSize : Nat
  safeRange : Nat
  isLayerKey : Nat → Bool
  isValidKeyUser : Nat → Bool

/-- custom_keycodes.h: TURBO = SAFE_RANGE, LLOCK, TDM_RECORD, ... -/
def TDM_RECORD (cfg : TDMConfig) : Nat := cfg.safeRange + 2
def TDM_DELAY (cfg : TDMConfig) : Nat := cfg.safeRange + 3
def TDM_END (cfg : TDMConfig) : Nat := cfg.safeRange + 4
def TDM_PLAY (cfg : TDMConfig) : Nat := cfg.safeRange + 5
def TDM_LOOP (cfg : TDMConfig) : Nat := cfg.safeRange + 6
def TDM_SELECT (cfg : TDMConfig) : Nat := cfg.safeRange + 7

/-- The State enum of the source. -/
inductive State where
  | recording
  | recording_delay
  | playing
  | looping
  | selecting
  | idle
deriving DecidableEq

/-- The two deferred-exec callbacks of the source. -/
inductive Cb where
  | loopCb
  | delayCb
deriving DecidableEq

/-- The global mutable state of temporal_dynamic_macro.c.  buf is
MACRO_buffers[0] (indices outside [0, bufferSize) model memory past the
array).  ends0/ends1 are MACRO_ends as offsets.  playTok/delayTok model
play_token/delay_token: some cb means a pending deferred callback.
emitted is the log of register_code/unregister_code calls to the sink. -/
@[ext] structure TDMState where
  buf : Int → Keypress
  ends0 : Int
  ends1 : Int
  macro_id : Nat
  mstart : Int
  iter : Int
  mend : Int
  dir : Int
  delay_acc : Nat
  mode : State
  got_first_keydown : Bool
  play_finished : Bool
  selection : Nat
  playTok : Option Cb
  delayTok : Option Cb
  emitted : List (Nat × Bool)

/-- DIRECTION(M_id) = (M_id & 1) * -2 + 1. -/
def direction_of (i : Nat) : Int := (Int.ofNat (i % 2)) * (-2) + 1

/-- NEIGHBOR(x) = x + 1 - 2 * (x % 2). -/
def neighbor (i : Nat) : Nat := i + 1 - 2 * (i % 2)

/-- TDM_CURRENT_START(M_id) = buffer start + (M_id & 1) * TDM_BUFFER_SIZE. -/
def current_start (cfg : TDMConfig) (i : Nat) : Int := Int.ofNat ((i % 2) * cfg.bufferSize)

/-- MACRO_ends[i] for i in {0,1}. -/
def endOf (s : TDMState) (i : Nat) : Int :=
  if i % 2 = 0 then s.ends0 else s.ends1

/-- Assignment MACRO_ends[i] := v. -/
def setEnd (s : TDMState) (i : Nat) (v : Int) : TDMState :=
  if i % 2 = 0 then { s with ends0 := v } else { s with ends1 := v }

/-- Pointwise store into the buffer. -/
def bufWrite (b : Int → Keypress) (i : Int) (v : Keypress) : Int → Keypress :=
  fun j => if j = i then v else b j

/-- reset_state(): every end to its slot start; MACRO_iterator = NULL is
modelled as offset 0 (it is only read again after tdm_reset_iterator). -/
def reset_state (cfg : TDMConfig) (s : TDMState) : TDMState :=
  { s with ends0 := current_start cfg 0, ends1 := current_start cfg 1,
           mstart := 0, iter := 0, mend := current_start cfg 0 }

/-- State at the end of tdm_init: zero-initialised statics, then
reset_state (the transition matrix and LED feedback carry no model state). -/
def initState (cfg : TDMConfig) : TDMState :=
  reset_state cfg
    { buf := fun _ => ⟨0, 0, 0⟩, ends0 := 0, ends1 := 0, macro_id := 0,
      mstart := 0, iter := 0, mend := 0, dir := 1, delay_acc := 0,
      mode := State.idle, got_first_keydown := false, play_finished := false,
      selection := 0, playTok := none, delayTok := none, emitted := [] }

/-- The one state-changing side effect of the debugging hook print_macros
(reached from the default tdm_record_key_user / tdm_record_end_user hooks and
from tdm_record_delay_end): MACRO_ends[MACRO_id] = MACRO_iterator. -/
def print_macros_sync (s : TDMState) : TDMState :=
  setEnd s s.macro_id s.iter

/-- tdm_reset_iterator(). -/
def tdm_reset_iterator (cfg : TDMConfig) (s : TDMState) : TDMState :=
  { s with dir := direction_of s.macro_id,
           mstart := current_start cfg s.macro_id,
           iter := current_start cfg s.macro_id,
           mend := endOf s s.macro_id,
           play_finished := false }

/-- keycode_to_int: num row 30..39 and num pad 89..98 to 0..9, else -1. -/
def keycode_to_int (k : Nat) : Int :=
  if 30 ≤ k ∧ k ≤ 39 then (if k = 39 then 0 else Int.ofNat k - 29)
  else if 89 ≤ k ∧ k ≤ 98 then (if k = 98 then 0 else Int.ofNat k - 88)
  else -1

/-- tdm_is_control_key. -/
def tdm_is_control_key (cfg : TDMConfig) (k : Nat) : Bool :=
  (k == TDM_SELECT cfg) || (k == TDM_RECORD cfg) || (k == TDM_DELAY cfg) ||
  (k == TDM_END cfg) || (k == TDM_PLAY cfg) || (k == TDM_LOOP cfg)

/-- tdm_is_layer_key: the QK_* ranges are external QMK constants, supplied by
the configuration. -/
def tdm_is_layer_key (cfg : TDMConfig) (k : Nat) : Bool := cfg.isLayerKey k

/-- tdm_is_valid_key. -/
def tdm_is_valid_key (cfg : TDMConfig) (k : Nat) : Bool :=
  !(tdm_is_control_key cfg k) && cfg.isValidKeyUser k

/-- tdm_is_valid_number: KC_1..KC_9 = 30..38, KC_0 = 39, KC_P1..KC_P9 =
89..97, KC_P0 = 98. -/
def tdm_is_valid_number (k : Nat) : Bool :=
  decide ((30 ≤ k ∧ k ≤ 38) ∨ k = 39 ∨ (89 ≤ k ∧ k ≤ 97) ∨ k = 98)

/-- keycode_to_state. -/
def keycode_to_state (cfg : TDMConfig) (k : Nat) : State :=
  if k = TDM_RECORD cfg then State.recording
  else if k = TDM_DELAY cfg then State.recording_delay
  else if k = TDM_END cfg then State.idle
  else if k = TDM_PLAY cfg then State.playing
  else if k = TDM_LOOP cfg then State.looping
  else if k = TDM_SELECT cfg then State.selecting
  else State.idle

/-- Backward trimming loop shared by tdm_record_end and
tdm_record_delay_start: while iter is not at the slot start and cond holds of
the record one step behind, iter steps back.  The fuel is the number of
records between the slot start and iter, so fuel 0 is exactly the
iter == MACRO_start exit of the C loop.  Only the iterator moves, so the
function returns the final iterator. -/
def trim_go (cond : Keypress → Bool) (buf : Int → Keypress) (dir : Int) :
    Nat → Int → Int
  | 0, i => i
  | n + 1, i => if cond (buf (i - dir)) then trim_go cond buf dir n (i - dir) else i

/-- Entry to the trimming loop from a full state. -/
def trim_back (cond : Keypress → Bool) (s : TDMState) : Int :=
  trim_go cond s.buf s.dir ((s.dir * (s.iter - s.mstart)).toNat) s.iter

/-- tdm_record_end(): print_macros (syncs the end), trim trailing records
that are releases or control keys or layer keys, store the end, then the
default tdm_record_end_user hook prints the macros again. -/
def trim_end_cond (cfg : TDMConfig) (r : Keypress) : Bool :=
  !(is_set r FLAG_pressed) || tdm_is_control_key cfg r.keycode ||
  tdm_is_layer_key cfg r.keycode

/-- tdm_record_end continued: see the doc comment above. -/
def tdm_record_end (cfg : TDMConfig) (s : TDMState) : TDMState :=
  let s1 := print_macros_sync s
  let i2 := trim_back (trim_end_cond cfg) s1
  let s2 := { s1 with iter := i2 }
  let s3 := setEnd s2 s2.macro_id s2.iter
  print_macros_sync s3

/-- tdm_record_key(): leading key-up guard on the function-static
got_first_keydown, collision check against the neighbor end, write at the
iterator, advance, defensively clear delay and flags at the new head, then
the default tdm_record_key_user hook runs print_macros. -/
def tdm_record_key (cfg : TDMConfig) (k : Nat) (pressed : Bool) (s : TDMState) : TDMState :=
  if !pressed && !s.got_first_keydown then s
  else
    let s := { s with got_first_keydown := true }
    if s.iter - s.dir = endOf s (neighbor s.macro_id) then tdm_record_end cfg s
    else
      let r1 := set_flag { s.buf s.iter with keycode := k } FLAG_pressed pressed
      let s := { s with buf := bufWrite s.buf s.iter r1 }
      let s := { s with iter := s.iter + s.dir }
      let r2 := clear_flags { s.buf s.iter with delay_ms := 0 }
      let s := { s with buf := bufWrite s.buf s.iter r2 }
      print_macros_sync s

/-- tdm_record_delay_start(): zero the accumulator, then trim backward over
trailing layer-key records. -/
def tdm_record_delay_start (cfg : TDMConfig) (s : TDMState) : TDMState :=
  let s1 := { s with delay_acc := 0 }
  { s1 with iter := trim_back (fun r => tdm_is_layer_key cfg r.keycode) s1 }

/-- tdm_record_delay(keycode): reject once the accumulator is over the
2-hour cap or the key is not numeric, else shift in the digit (uint32). -/
def tdm_record_delay (k : Nat) (s : TDMState) : TDMState :=
  if s.delay_acc > 7200000 then s
  else if keycode_to_int k = -1 then s
  else { s with delay_acc := (s.delay_acc * 10 + (keycode_to_int k).toNat) % 4294967296 }

/-- tdm_record_delay_end(): print_macros (syncs the end), store the
accumulator into the delay_ms of the record at the iterator (the lookback
loop of the source is commented out), zero the accumulator. -/
def tdm_record_delay_end (s : TDMState) : TDMState :=
  let s1 := print_macros_sync s
  let r := { s1.buf s1.iter with delay_ms := s1.delay_acc }
  { s1 with buf := bufWrite s1.buf s1.iter r, delay_acc := 0 }

/-- tdm_play_key: register_code on a pressed record, unregister_code
otherwise; the sink call is appended to the log. -/
def tdm_play_key (s : TDMState) (r : Keypress) : TDMState :=
  if is_set r FLAG_pressed then { s with emitted := s.emitted ++ [(r.keycode, true)] }
  else { s with emitted := s.emitted ++ [(r.keycode, false)] }

/-- The playback loop of tdm_play: emit the record at the iterator, advance,
and pause (scheduling the mode-dependent continuation into delay_token) as
soon as the newly-reached record carries a delay.  Fuel counts the records
between the iterator and MACRO_end, so fuel 0 is the loop exit, after which
play_finished is set. -/
def tdm_play_go : Nat → TDMState → TDMState
  | 0, s => { s with play_finished := true }
  | n + 1, s =>
    let s1 := tdm_play_key s (s.buf s.iter)
    let s2 := { s1 with iter := s1.iter + s1.dir }
    if (s2.buf s2.iter).delay_ms ≠ 0 then
      let cb := if s2.mode = State.looping then Cb.loopCb else Cb.delayCb
      { s2 with delayTok := some cb }
    else tdm_play_go n s2

/-- tdm_play(). -/
def tdm_play (s : TDMState) : TDMState :=
  tdm_play_go ((s.dir * (s.mend - s.iter)).toNat) s

/-- tdm_clear_tokens(). -/
def tdm_clear_tokens (s : TDMState) : TDMState :=
  { s with playTok := none, delayTok := none }

/-- tdm_play_stop(): release-all on the sink, cancel pending callbacks. -/
def tdm_play_stop (s : TDMState) : TDMState :=
  tdm_clear_tokens s

/-- tdm_play_start(): reset the cursor, play synchronously, and if not left
waiting on a delay, clear tokens and take the playing -> idle transition
(whose table entry is tdm_play_stop; inlined here because the transition
dispatcher is defined below). -/
def tdm_play_start (cfg : TDMConfig) (s : TDMState) : TDMState :=
  let s1 := tdm_play (tdm_reset_iterator cfg s)
  if s1.play_finished then
    tdm_play_stop { (tdm_clear_tokens s1) with mode := State.idle }
  else s1

/-- tdm_loop_start(): restart if already looping or delayed, reset the
cursor, schedule tdm_loop_callback. -/
def tdm_loop_start (cfg : TDMConfig) (s : TDMState) : TDMState :=
  let s1 := if s.playTok = none then s else tdm_clear_tokens s
  let s2 := tdm_reset_iterator cfg s1
  { s2 with playTok := some Cb.loopCb }

/-- tdm_select_start(). -/
def tdm_select_start (s : TDMState) : TDMState :=
  { s with selection := 0 }

/-- tdm_select_macro(keycode): decimal accumulation on the uint8 selection
counter, rejecting non-numeric keys and saturating the guard at
TDM_NUM_MACROS = 2. -/
def tdm_select_key (k : Nat) (s : TDMState) : TDMState :=
  if s.selection ≥ 2 then s
  else if keycode_to_int k = -1 then s
  else { s with selection := (s.selection * 10 + (keycode_to_int k).toNat) % 256 }

/-- tdm_select_end(): clamp to TDM_NUM_MACROS - 1 = 1 and set MACRO_id. -/
def tdm_select_end (s : TDMState) : TDMState :=
  if s.selection ≥ 2 then { s with macro_id := 1 } else { s with macro_id := s.selection }

/-- tdm_record_start(): feedback, release-all, reset the cursor. -/
def tdm_record_start (cfg : TDMConfig) (s : TDMState) : TDMState :=
  tdm_reset_iterator cfg s

/-- The transition matrix exactly as filled in by tdm_init_state_machine;
all other cells are the zero-initialised NULL. -/
def transition_matrix (m : State) (n : State) :
    Option (TDMConfig → TDMState → TDMState) :=
  match m, n with
  | State.idle, State.recording => some tdm_record_start
  | State.recording, State.recording_delay => some tdm_record_delay_start
  | State.recording_delay, State.recording => some (fun _ s => tdm_record_delay_end s)
  | State.recording, State.idle => some tdm_record_end
  | State.idle, State.playing => some tdm_play_start
  | State.playing, State.idle => some (fun _ s => tdm_play_stop s)
  | State.idle, State.looping => some tdm_loop_start
  | State.looping, State.looping => some tdm_loop_start
  | State.looping, State.idle => some (fun _ s => tdm_play_stop s)
  | State.idle, State.selecting => some (fun _ s => tdm_select_start s)
  | State.selecting, State.idle => some (fun _ s => tdm_select_end s)
  | _, _ => none

/-- tdm_state_transition: NULL cell rejects with the state untouched;
otherwise the mode is updated first and then the entry action runs. -/
def tdm_state_transition (cfg : TDMConfig) (n : State) (s : TDMState) :
    TDMState × Bool :=
  match transition_matrix s.mode n with
  | none => (s, false)
  | some f => (f cfg { s with mode := n }, true)

/-- tdm_delay_callback: resume playback; on completion transition to idle
and clear the tokens; returns 0 (no rescheduling). -/
def tdm_delay_callback (cfg : TDMConfig) (s : TDMState) : TDMState × Nat :=
  let s1 := tdm_play s
  if s1.play_finished then
    (tdm_clear_tokens (tdm_state_transition cfg State.idle s1).1, 0)
  else (s1, 0)

/-- tdm_loop_callback: resume playback; on completion rewind the cursor and
reschedule after TDM_DEBOUNCE_DELAY = 100; otherwise a delay continuation is
already scheduled, return 0. -/
def tdm_loop_callback (cfg : TDMConfig) (s : TDMState) : TDMState × Nat :=
  let s1 := tdm_play s
  if s1.play_finished then (tdm_reset_iterator cfg s1, 100) else (s1, 0)

/-- Dispatch a callback body. -/
def run_callback (cfg : TDMConfig) : Cb → TDMState → TDMState × Nat
  | Cb.delayCb, s => tdm_delay_callback cfg s
  | Cb.loopCb, s => tdm_loop_callback cfg s

/-- The scheduler fires the callback held in play_token: the token is
consumed, the body runs, and a non-zero return value re-arms it. -/
def fire_play_token (cfg : TDMConfig) (s : TDMState) : TDMState :=
  match s.playTok with
  | none => s
  | some cb =>
    let p := run_callback cfg cb { s with playTok := none }
    if p.2 ≠ 0 then { p.1 with playTok := some cb } else p.1

/-- The scheduler fires the callback held in delay_token. -/
def fire_delay_token (cfg : TDMConfig) (s : TDMState) : TDMState :=
  match s.delayTok with
  | none => s
  | some cb =>
    let p := run_callback cfg cb { s with delayTok := none }
    if p.2 ≠ 0 then { p.1 with delayTok := some cb } else p.1

/-- process_temporal_dynamic_macro(keycode, record): the event entry point.
The Bool result is the propagate-to-host decision, with
TDM_SILENT_RECORDED_KEYS = false and TDM_SILENT_INVALID_KEYS = true. -/
def process_tdm (cfg : TDMConfig) (k : Nat) (pressed : Bool) (s : TDMState) :
    TDMState × Bool :=
  if tdm_is_control_key cfg k then
    (if !pressed then (tdm_state_transition cfg (keycode_to_state cfg k) s).1 else s, true)
  else if tdm_is_layer_key cfg k then (s, true)
  else
    match s.mode with
    | State.idle => (s, true)
    | State.recording =>
      if tdm_is_valid_key cfg k then (tdm_record_key cfg k pressed s, true)
      else if pressed then ((tdm_state_transition cfg State.idle s).1, false)
      else (s, true)
    | State.recording_delay =>
      if tdm_is_valid_number k && pressed then (tdm_record_delay k s, true)
      else if !pressed && !(tdm_is_valid_number k) then
        ((tdm_state_transition cfg State.recording s).1, true)
      else (s, true)
    | State.selecting =>
      if !pressed then (s, true)
      else if tdm_is_valid_number k then (tdm_select_key k s, true)
      else ((tdm_state_transition cfg State.idle s).1, false)
    | _ => (s, true)

/-- An externally observable step: a device event through the entry point,
or the scheduler firing one of the two deferred-exec slots. -/
inductive Ev where
  | key (k : Nat) (pressed : Bool)
  | fireP
  | fireD

/-- One step. -/
def stepEv (cfg : TDMConfig) : Ev → TDMState → TDMState
  | Ev.key k p, s => (process_tdm cfg k p s).1
  | Ev.fireP, s => fire_play_token cfg s
  | Ev.fireD, s => fire_delay_token cfg s

/-- Run a sequence of steps. -/
def runEvs (cfg : TDMConfig) (l : List Ev) (s : TDMState) : TDMState :=
  l.foldl (fun t e => stepEv cfg e t) s

/-- A concrete configuration for the executable test cases: the capacity-4
region of the collision scenario of the spec, SAFE_RANGE at 1000 (so the
control keycodes are 1002..1007), no layer keys, the default user hook. -/
def cfg4 : TDMConfig :=
  { bufferSize := 4, safeRange := 1000,
    isLayerKey := fun _ => false, isValidKeyUser := fun _ => true }

/-! ## Basic frame lemmas -/

@[simp] lemma setEnd_buf (s : TDMState) (i : Nat) (v : Int) : (setEnd s i v).buf = s.buf := by
  unfold setEnd; split <;> rfl

@[simp] lemma setEnd_iter (s : TDMState) (i : Nat) (v : Int) : (setEnd s i v).iter = s.iter := by
  unfold setEnd; split <;> rfl

@[simp] lemma setEnd_mode (s : TDMState) (i : Nat) (v : Int) : (setEnd s i v).mode = s.mode := by
  unfold setEnd; split <;> rfl

@[simp] lemma setEnd_macro_id (s : TDMState) (i : Nat) (v : Int) : (setEnd s i v).macro_id = s.macro_id := by
  unfold setEnd; split <;> rfl

@[simp] lemma setEnd_dir (s : TDMState) (i : Nat) (v : Int) : (setEnd s i v).dir = s.dir := by
  unfold setEnd; split <;> rfl

@[simp] lemma setEnd_mstart (s : TDMState) (i : Nat) (v : Int) : (setEnd s i v).mstart = s.mstart := by
  unfold setEnd; split <;> rfl

@[simp] lemma setEnd_mend (s : TDMState) (i : Nat) (v : Int) : (setEnd s i v).mend = s.mend := by
  unfold setEnd; split <;> rfl

@[simp] lemma setEnd_delay_acc (s : TDMState) (i : Nat) (v : Int) : (setEnd s i v).delay_acc = s.delay_acc := by
  unfold setEnd; split <;> rfl

@[simp] lemma setEnd_playTok (s : TDMState) (i : Nat) (v : Int) : (setEnd s i v).playTok = s.playTok := by
  unfold setEnd; split <;> rfl

@[simp] lemma setEnd_delayTok (s : TDMState) (i : Nat) (v : Int) : (setEnd s i v).delayTok = s.delayTok := by
  unfold setEnd; split <;> rfl

@[simp] lemma setEnd_emitted (s : TDMState) (i : Nat) (v : Int) : (setEnd s i v).emitted = s.emitted := by
  unfold setEnd; split <;> rfl

@[simp] lemma setEnd_got (s : TDMState) (i : Nat) (v : Int) : (setEnd s i v).got_first_keydown = s.got_first_keydown := by
  unfold setEnd; split <;> rfl

@[simp] lemma setEnd_play_finished (s : TDMState) (i : Nat) (v : Int) : (setEnd s i v).play_finished = s.play_finished := by
  unfold setEnd; split <;> rfl

@[simp] lemma setEnd_selection (s : TDMState) (i : Nat) (v : Int) : (setEnd s i v).selection = s.selection := by
  unfold setEnd; split <;> rfl

/-! ## C10: set_flag / is_set -/

lemma two_pow_and_255 {k : Nat} (hk : k < 8) : (2 : Nat) ^ k &&& 255 = 2 ^ k := by
  have h : (255 : Nat) = 2 ^ 8 - 1 := by norm_num
  rw [h, Nat.and_pow_two_sub_one_eq_mod]
  exact Nat.mod_eq_of_lt (Nat.pow_lt_pow_right (by norm_num) hk)

/-- C10 (confirmed): for a keypress record, a single-bit uint8 flag mask and a
boolean b, set_flag leaves every flag bit other than the mask bit unchanged,
and afterwards is_set on that mask returns exactly b. -/
theorem c10_set_flag_exact (kp : Keypress) (flag : Nat) (b : Bool) (k : Nat)
    (hf : flag = 2 ^ k) (hk : k < 8) :
    (∀ j : Nat, j ≠ k → (set_flag kp flag b).flags.testBit j = kp.flags.testBit j) ∧
    is_set (set_flag kp flag b) flag = b := by
  subst hf
  have hmask : (2 : Nat) ^ k &&& (if b then 255 else 0) = if b then 2 ^ k else 0 := by
    cases b
    · simp
    · simpa using two_pow_and_255 hk
  have hbit : ((set_flag kp (2 ^ k) b).flags).testBit k = b := by
    simp only [set_flag, hmask]
    cases b <;>
      simp [Nat.testBit_xor, Nat.testBit_and, Nat.testBit_two_pow_self]
  constructor
  · intro j hj
    simp only [set_flag, hmask]
    cases b <;>
      simp [Nat.testBit_xor, Nat.testBit_and, Nat.testBit_two_pow_of_ne (Ne.symm hj)]
  · simp only [is_set]
    rw [Nat.and_two_pow, hbit]
    cases b <;> simp

/-- Witness for C10 at kp = (5, 0, 2), flag = 1 = 2 ^ 0, b = true. -/
theorem c10_set_flag_exact_witness :
    (1 : Nat) = 2 ^ 0 ∧ (0 : Nat) < 8 ∧
    (set_flag ⟨5, 0, 2⟩ 1 true).flags.testBit 1 = (⟨5, 0, 2⟩ : Keypress).flags.testBit 1 ∧
    is_set (set_flag ⟨5, 0, 2⟩ 1 true) 1 = true :=
  ⟨rfl, by decide,
   (c10_set_flag_exact ⟨5, 0, 2⟩ 1 true 0 rfl (by decide)).1 1 (by decide),
   (c10_set_flag_exact ⟨5, 0, 2⟩ 1 true 0 rfl (by decide)).2⟩

/-! ## C6: the delay accumulator cap -/

lemma keycode_to_int_cases (k : Nat) :
    keycode_to_int k = -1 ∨ (0 ≤ keycode_to_int k ∧ keycode_to_int k ≤ 9) := by
  unfold keycode_to_int
  split_ifs <;> simp <;> omega

/-- C6 counterexample: seven 9-digits are all accepted (the guard only
rejects once the accumulator is already over the cap), leaving the
accumulator at 9,999,999, strictly above the 2-hour cap of 7,200,000. -/
theorem c6_cap_exceeded_counterexample :
    (List.foldl (fun t kc => tdm_record_delay kc t)
        (initState cfg4) [38, 38, 38, 38, 38, 38, 38]).delay_acc = 9999999 ∧
    7200000 < 9999999 := by
  constructor
  · decide
  · decide

/-- C6 (amended): a digit is rejected only once the accumulator already
exceeds the 2-hour cap, so across every sequence of delay-digit
accumulations the accumulator never exceeds 72,000,009 (one digit beyond the
cap); an accepted digit sets accumulator := accumulator * 10 + digit. -/
theorem c6_delay_acc_bounded (ks : List Nat) (s : TDMState)
    (h : s.delay_acc ≤ 72000009) :
    (List.foldl (fun t kc => tdm_record_delay kc t) s ks).delay_acc ≤ 72000009 := by
  induction ks generalizing s with
  | nil => simpa using h
  | cons a l ih =>
    simp only [List.foldl_cons]
    apply ih
    unfold tdm_record_delay
    split_ifs with h1 h2
    · exact h
    · exact h
    · simp only
      rcases keycode_to_int_cases a with ha | ⟨ha0, ha9⟩
      · exact absurd ha h2
      · have hv : (keycode_to_int a).toNat ≤ 9 := by omega
        have hmle := Nat.mod_le (s.delay_acc * 10 + (keycode_to_int a).toNat) 4294967296
        omega

/-- Witness for C6 at the initial state and a single 9-digit. -/
theorem c6_delay_acc_bounded_witness :
    (initState cfg4).delay_acc ≤ 72000009 ∧
    (List.foldl (fun t kc => tdm_record_delay kc t) (initState cfg4) [38]).delay_acc ≤ 72000009 :=
  ⟨by decide, c6_delay_acc_bounded [38] (initState cfg4) (by decide)⟩

/-! ## C7: where end-delay-entry stores the accumulated value -/

/-- C7 counterexample: record press 10 / release 10 (cursor at 2), enter
delay mode, type 1 then 6 (accumulator 16), end delay entry: the value lands
in the delay_ms of the record AT the cursor (index 2), while the record
immediately behind the cursor (index 1, the most recently completed key
event) keeps delay 0 — contradicting the claim as stated. -/
theorem c7_delay_written_at_cursor_counterexample :
    (runEvs cfg4 [Ev.key 1002 false, Ev.key 10 true, Ev.key 10 false,
        Ev.key 1003 false, Ev.key 30 true, Ev.key 35 true, Ev.key 1002 false]
        (initState cfg4)).iter = 2 ∧
    ((runEvs cfg4 [Ev.key 1002 false, Ev.key 10 true, Ev.key 10 false,
        Ev.key 1003 false, Ev.key 30 true, Ev.key 35 true, Ev.key 1002 false]
        (initState cfg4)).buf 1).delay_ms = 0 ∧
    ((runEvs cfg4 [Ev.key 1002 false, Ev.key 10 true, Ev.key 10 false,
        Ev.key 1003 false, Ev.key 30 true, Ev.key 35 true, Ev.key 1002 false]
        (initState cfg4)).buf 2).delay_ms = 16 := by
  refine ⟨by decide, by decide, by decide⟩

/-- C7 (amended): end-delay-entry writes the accumulated value into the
delay_ms of the record AT the cursor (the next write head), leaves every
other record — in particular the one immediately behind the cursor —
unchanged, and then resets the accumulator to 0. -/
theorem c7_delay_end_at_cursor (s : TDMState) :
    ((tdm_record_delay_end s).buf s.iter).delay_ms = s.delay_acc ∧
    ((tdm_record_delay_end s).buf s.iter).keycode = (s.buf s.iter).keycode ∧
    (tdm_record_delay_end s).delay_acc = 0 ∧
    (∀ j : Int, j ≠ s.iter → (tdm_record_delay_end s).buf j = s.buf j) := by
  refine ⟨?_, ?_, ?_, ?_⟩ <;>
    simp [tdm_record_delay_end, print_macros_sync, bufWrite]
  intro j hj
  simp [hj]

/-- Witness for C7 from the initial state (cursor at 0): the record at index
1 is untouched. -/
theorem c7_delay_end_at_cursor_witness :
    (1 : Int) ≠ (initState cfg4).iter ∧
    (tdm_record_delay_end (initState cfg4)).buf 1 = (initState cfg4).buf 1 :=
  ⟨by decide, (c7_delay_end_at_cursor (initState cfg4)).2.2.2 1 (by decide)⟩

/-! ## C8: the transition table -/

/-- The eleven legal transitions of section 4.4 of the spec. -/
def legal_transitions : List (State × State) :=
  [(State.idle, State.recording), (State.recording, State.recording_delay),
   (State.recording_delay, State.recording), (State.recording, State.idle),
   (State.idle, State.playing), (State.playing, State.idle),
   (State.idle, State.looping), (State.looping, State.looping),
   (State.looping, State.idle), (State.idle, State.selecting),
   (State.selecting, State.idle)]

/-- C8 (confirmed): a requested transition is accepted exactly when the pair
(current mode, requested mode) is one of the eleven table entries, in which
case the mode is updated and the bound entry action runs on the updated
state; any other request is rejected with the whole state — mode, buffers,
slot ends, accumulator — unchanged. -/
theorem c8_transition_table_exact (cfg : TDMConfig) (n : State) (s : TDMState) :
    ((tdm_state_transition cfg n s).2 = true ↔ (s.mode, n) ∈ legal_transitions) ∧
    ((s.mode, n) ∉ legal_transitions → (tdm_state_transition cfg n s).1 = s) ∧
    ((s.mode, n) ∈ legal_transitions → ∃ f, transition_matrix s.mode n = some f ∧
        (tdm_state_transition cfg n s).1 = f cfg { s with mode := n }) := by
  cases hm : s.mode <;> cases n <;>
    simp [tdm_state_transition, transition_matrix, legal_transitions, hm]

/-- Witness for C8: from idle, requesting recording_delay is not in the
table and leaves the state untouched. -/
theorem c8_transition_table_exact_witness :
    ((initState cfg4).mode, State.recording_delay) ∉ legal_transitions ∧
    (tdm_state_transition cfg4 State.recording_delay (initState cfg4)).1 = initState cfg4 :=
  ⟨by decide,
   (c8_transition_table_exact cfg4 State.recording_delay (initState cfg4)).2.1 (by decide)⟩

/-! ## Concrete traces for the executable counterexamples -/

/-- Record one press (keycode 42) into the odd slot 1 and stop: select 1,
begin recording, press 42, end recording. -/
def c1_trace1 : List Ev :=
  [Ev.key 1007 false, Ev.key 30 true, Ev.key 1004 false,
   Ev.key 1002 false, Ev.key 42 true, Ev.key 1004 false]

/-- Then select slot 0, begin recording and press four keys. -/
def c1_trace2 : List Ev :=
  [Ev.key 1007 false, Ev.key 39 true, Ev.key 1004 false,
   Ev.key 1002 false, Ev.key 11 true, Ev.key 12 true, Ev.key 13 true,
   Ev.key 14 true]

/-- C1 counterexample: after c1_trace1, slot 1 occupies exactly index 4
(its end is 3, the region is 4 wide), and its record there is (42, 0, 1).
Recording four keys into slot 0 leaves the ends untouched but the defensive
clearing of the new write head lands on index 4 and zeroes the flags of the
record of slot 1 — an operation on slot 0 writes into a record of the
neighbor occupied range, refuting the second half of the claim. -/
theorem c1_neighbor_record_clobbered :
    (runEvs cfg4 c1_trace1 (initState cfg4)).ends1 = 3 ∧
    (runEvs cfg4 c1_trace1 (initState cfg4)).buf 4 = ⟨42, 0, 1⟩ ∧
    (runEvs cfg4 (c1_trace1 ++ c1_trace2) (initState cfg4)).ends1 = 3 ∧
    (runEvs cfg4 (c1_trace1 ++ c1_trace2) (initState cfg4)).buf 4 = ⟨42, 0, 0⟩ := by
  refine ⟨by decide, by decide, by decide, by decide⟩

/-- Begin recording into slot 0 (capacity 4, neighbor empty) and send five
press events. -/
def c2_trace : List Ev :=
  [Ev.key 1002 false, Ev.key 11 true, Ev.key 12 true, Ev.key 13 true,
   Ev.key 14 true, Ev.key 15 true]

/-- C2: with a capacity-4 region and the neighbor empty (its end at index
4), the collision guard compares the PREVIOUS write position with the
neighbor end, so the fifth event is still written (at index 4, which is the
neighbor end and one past the last in-bounds index) and recording continues
(the mode is still recording and the synced end is 5).  The claim says the
fifth event is not written and recording terminates at 4 events. -/
theorem c2_fifth_event_recorded :
    (runEvs cfg4 c2_trace (initState cfg4)).iter = 5 ∧
    (runEvs cfg4 c2_trace (initState cfg4)).buf 4 = ⟨15, 0, 1⟩ ∧
    (runEvs cfg4 c2_trace (initState cfg4)).ends0 = 5 ∧
    (runEvs cfg4 c2_trace (initState cfg4)).mode = State.recording := by
  refine ⟨by decide, by decide, by decide, by decide⟩

/-- Record press 10 / release 10 into slot 0 with no delays, end, play. -/
def c3_trace : List Ev :=
  [Ev.key 1002 false, Ev.key 10 true, Ev.key 10 false,
   Ev.key 1004 false, Ev.key 1005 false]

/-- C3 counterexample: recording press(10), release(10) and playing back
emits only press(10): end-recording trims the trailing release, so the
emitted sequence differs from the recorded one. -/
theorem c3_round_trip_counterexample :
    (runEvs cfg4 c3_trace (initState cfg4)).emitted = [(10, true)] ∧
    [(10, true)] ≠ [(10, true), (10, false)] := by
  refine ⟨by decide, by decide⟩

/-- Select slot 1, begin recording, press keycode 42. -/
def c4_trace : List Ev :=
  [Ev.key 1007 false, Ev.key 30 true, Ev.key 1004 false,
   Ev.key 1002 false, Ev.key 42 true]

/-- C4: TDM_CURRENT_START of an odd slot is buffer start + TDM_BUFFER_SIZE,
so the very first record of slot 1 is written at index 4 of a 4-element
region — one past the last valid index, out of bounds. -/
theorem c4_odd_slot_first_write_out_of_bounds :
    (runEvs cfg4 c4_trace (initState cfg4)).buf 4 = ⟨42, 0, 1⟩ ∧
    ¬((0 : Int) ≤ 4 ∧ (4 : Int) < (cfg4.bufferSize : Int)) := by
  refine ⟨by decide, by decide⟩

/-- Two recording sessions: the first records press 10 / release 10; the
second begins and immediately receives a release of keycode 20. -/
def c5_trace : List Ev :=
  [Ev.key 1002 false, Ev.key 10 true, Ev.key 10 false, Ev.key 1004 false,
   Ev.key 1002 false, Ev.key 20 false]

/-- C5: got_first_keydown is a function-static flag that is never reset
between recording sessions, so in the second session the leading release IS
stored (record (20, 0, 0) at index 0) and the cursor advances to 1,
contradicting the claim for that session. -/
theorem c5_leading_release_stored_second_session :
    (runEvs cfg4 c5_trace (initState cfg4)).iter = 1 ∧
    (runEvs cfg4 c5_trace (initState cfg4)).buf 0 = ⟨20, 0, 0⟩ := by
  refine ⟨by decide, by decide⟩

/-! ## C9: looping never self-terminates -/

/-- Shape of tdm_play_key as a plain structure update. -/
lemma play_key_eq (s : TDMState) (r : Keypress) :
    tdm_play_key s r = { s with emitted := s.emitted ++ [(r.keycode, is_set r FLAG_pressed)] } := by
  unfold tdm_play_key
  cases h : is_set r FLAG_pressed <;> simp [h]

/-- The playback loop touches only the iterator, the emission log,
play_finished and (on a pause) delay_token; the continuation it schedules is
determined by the mode. -/
lemma play_go_frame (n : Nat) (s : TDMState) :
    (tdm_play_go n s).mode = s.mode ∧
    (tdm_play_go n s).playTok = s.playTok ∧
    ((tdm_play_go n s).delayTok = s.delayTok ∨
      (tdm_play_go n s).delayTok =
        some (if s.mode = State.looping then Cb.loopCb else Cb.delayCb)) ∧
    (tdm_play_go n s).ends0 = s.ends0 ∧
    (tdm_play_go n s).ends1 = s.ends1 ∧
    (tdm_play_go n s).macro_id = s.macro_id ∧
    (tdm_play_go n s).buf = s.buf ∧
    (tdm_play_go n s).delay_acc = s.delay_acc ∧
    (tdm_play_go n s).mstart = s.mstart ∧
    (tdm_play_go n s).mend = s.mend ∧
    (tdm_play_go n s).dir = s.dir ∧
    (tdm_play_go n s).got_first_keydown = s.got_first_keydown ∧
    (tdm_play_go n s).selection = s.selection := by
  induction n generalizing s with
  | zero => simp [tdm_play_go]
  | succ n ih =>
    rw [tdm_play_go, play_key_eq]
    by_cases hd : (s.buf (s.iter + s.dir)).delay_ms ≠ 0
    · simp [hd]
    · simpa [hd] using ih { s with emitted := s.emitted ++ [((s.buf s.iter).keycode, is_set (s.buf s.iter) FLAG_pressed)], iter := s.iter + s.dir }

/-- After the playback loop, either the macro finished or a continuation
(picked by the mode) is pending in delay_token. -/
lemma play_go_finished_or_paused (n : Nat) (s : TDMState) :
    (tdm_play_go n s).play_finished = true ∨
    (tdm_play_go n s).delayTok =
      some (if s.mode = State.looping then Cb.loopCb else Cb.delayCb) := by
  induction n generalizing s with
  | zero => left; simp [tdm_play_go]
  | succ n ih =>
    rw [tdm_play_go, play_key_eq]
    by_cases hd : (s.buf (s.iter + s.dir)).delay_ms ≠ 0
    · right; simp [hd]
    · simpa [hd] using ih { s with emitted := s.emitted ++ [((s.buf s.iter).keycode, is_set (s.buf s.iter) FLAG_pressed)], iter := s.iter + s.dir }

/-- play_go_frame, routed through tdm_play. -/
lemma play_frame (s : TDMState) :
    (tdm_play s).mode = s.mode ∧
    (tdm_play s).playTok = s.playTok ∧
    ((tdm_play s).delayTok = s.delayTok ∨
      (tdm_play s).delayTok =
        some (if s.mode = State.looping then Cb.loopCb else Cb.delayCb)) ∧
    (tdm_play s).ends0 = s.ends0 ∧
    (tdm_play s).ends1 = s.ends1 ∧
    (tdm_play s).macro_id = s.macro_id ∧
    (tdm_play s).buf = s.buf ∧
    (tdm_play s).delay_acc = s.delay_acc := by
  have h := play_go_frame ((s.dir * (s.mend - s.iter)).toNat) s
  exact ⟨h.1, h.2.1, h.2.2.1, h.2.2.2.1, h.2.2.2.2.1, h.2.2.2.2.2.1,
         h.2.2.2.2.2.2.1, h.2.2.2.2.2.2.2.1⟩

/-- play_go_finished_or_paused, routed through tdm_play. -/
lemma play_finished_or_paused (s : TDMState) :
    (tdm_play s).play_finished = true ∨
    (tdm_play s).delayTok =
      some (if s.mode = State.looping then Cb.loopCb else Cb.delayCb) :=
  play_go_finished_or_paused ((s.dir * (s.mend - s.iter)).toNat) s

/-- Invariant of a live looping session: mode is looping, both deferred-exec
slots hold (at most) the loop continuation, and at least one of them is
pending. -/
def LoopInv (s : TDMState) : Prop :=
  s.mode = State.looping ∧
  (s.playTok = none ∨ s.playTok = some Cb.loopCb) ∧
  (s.delayTok = none ∨ s.delayTok = some Cb.loopCb) ∧
  (s.playTok = some Cb.loopCb ∨ s.delayTok = some Cb.loopCb)

lemma play_delayTok_loop (t : TDMState) (hm : t.mode = State.looping) :
    (tdm_play t).delayTok = t.delayTok ∨ (tdm_play t).delayTok = some Cb.loopCb := by
  rcases (play_frame t).2.2.1 with h | h
  · exact Or.inl h
  · rw [hm] at h
    simp only [if_pos rfl] at h
    exact Or.inr h

lemma play_paused_loop (t : TDMState) (hm : t.mode = State.looping)
    (hpf : (tdm_play t).play_finished = false) :
    (tdm_play t).delayTok = some Cb.loopCb := by
  rcases play_finished_or_paused t with h | h
  · rw [hpf] at h; cases h
  · rw [hm] at h
    simpa using h

lemma loop_callback_finished (cfg : TDMConfig) (t : TDMState)
    (hpf : (tdm_play t).play_finished = true) :
    tdm_loop_callback cfg t = (tdm_reset_iterator cfg (tdm_play t), 100) := by
  simp only [tdm_loop_callback, hpf, if_true]

lemma loop_callback_paused (cfg : TDMConfig) (t : TDMState)
    (hpf : (tdm_play t).play_finished = false) :
    tdm_loop_callback cfg t = (tdm_play t, 0) := by
  simp only [tdm_loop_callback, hpf]
  simp

lemma fire_play_token_none (cfg : TDMConfig) (s : TDMState) (h : s.playTok = none) :
    fire_play_token cfg s = s := by
  simp only [fire_play_token, h]

lemma fire_play_token_some (cfg : TDMConfig) (s : TDMState) (cb : Cb) (h : s.playTok = some cb) :
    fire_play_token cfg s =
      (if (run_callback cfg cb { s with playTok := none }).2 ≠ 0
       then { (run_callback cfg cb { s with playTok := none }).1 with playTok := some cb }
       else (run_callback cfg cb { s with playTok := none }).1) := by
  simp only [fire_play_token, h]

lemma fire_delay_token_none (cfg : TDMConfig) (s : TDMState) (h : s.delayTok = none) :
    fire_delay_token cfg s = s := by
  simp only [fire_delay_token, h]

lemma fire_delay_token_some (cfg : TDMConfig) (s : TDMState) (cb : Cb) (h : s.delayTok = some cb) :
    fire_delay_token cfg s =
      (if (run_callback cfg cb { s with delayTok := none }).2 ≠ 0
       then { (run_callback cfg cb { s with delayTok := none }).1 with delayTok := some cb }
       else (run_callback cfg cb { s with delayTok := none }).1) := by
  simp only [fire_delay_token, h]

lemma fire_play_token_loopInv (cfg : TDMConfig) (s : TDMState) (h : LoopInv s) :
    LoopInv (fire_play_token cfg s) := by
  obtain ⟨hm, hp, hd, hpend⟩ := h
  rcases htok : s.playTok with _ | cb
  · rw [fire_play_token_none cfg s htok]
    refine ⟨hm, hp, hd, ?_⟩
    rcases hpend with hpend | hpend
    · rw [htok] at hpend; cases hpend
    · exact Or.inr hpend
  · have hcb : cb = Cb.loopCb := by
      rcases hp with hp | hp
      · rw [htok] at hp; cases hp
      · rw [htok] at hp; exact Option.some.inj hp
    subst hcb
    have hm0 : ({ s with playTok := none } : TDMState).mode = State.looping := hm
    rw [fire_play_token_some cfg s Cb.loopCb htok]
    simp only [run_callback]
    by_cases hpf : (tdm_play { s with playTok := none }).play_finished
    · rw [loop_callback_finished cfg _ hpf]
      simp only [ne_eq, OfNat.ofNat_ne_zero, not_false_eq_true, if_true]
      refine ⟨?_, Or.inr rfl, ?_, Or.inl rfl⟩
      · exact (play_frame { s with playTok := none }).1.trans hm
      · show (tdm_play { s with playTok := none }).delayTok = none ∨
            (tdm_play { s with playTok := none }).delayTok = some Cb.loopCb
        rcases play_delayTok_loop { s with playTok := none } hm0 with hdt | hdt
        · rw [hdt]; exact hd
        · rw [hdt]; exact Or.inr rfl
    · rw [loop_callback_paused cfg _ (by simpa using hpf)]
      simp only [ne_eq, not_true_eq_false, if_false, not_not]
      have hdt := play_paused_loop { s with playTok := none } hm0 (by simpa using hpf)
      refine ⟨(play_frame { s with playTok := none }).1.trans hm, ?_,
        Or.inr hdt, Or.inr hdt⟩
      rw [(play_frame { s with playTok := none }).2.1]
      exact Or.inl rfl

lemma fire_delay_token_loopInv (cfg : TDMConfig) (s : TDMState) (h : LoopInv s) :
    LoopInv (fire_delay_token cfg s) := by
  obtain ⟨hm, hp, hd, hpend⟩ := h
  rcases htok : s.delayTok with _ | cb
  · rw [fire_delay_token_none cfg s htok]
    refine ⟨hm, hp, hd, ?_⟩
    rcases hpend with hpend | hpend
    · exact Or.inl hpend
    · rw [htok] at hpend; cases hpend
  · have hcb : cb = Cb.loopCb := by
      rcases hd with hd | hd
      · rw [htok] at hd; cases hd
      · rw [htok] at hd; exact Option.some.inj hd
    subst hcb
    have hm0 : ({ s with delayTok := none } : TDMState).mode = State.looping := hm
    rw [fire_delay_token_some cfg s Cb.loopCb htok]
    simp only [run_callback]
    by_cases hpf : (tdm_play { s with delayTok := none }).play_finished
    · rw [loop_callback_finished cfg _ hpf]
      simp only [ne_eq, OfNat.ofNat_ne_zero, not_false_eq_true, if_true]
      refine ⟨?_, ?_, Or.inr rfl, Or.inr rfl⟩
      · exact (play_frame { s with delayTok := none }).1.trans hm
      · show (tdm_play { s with delayTok := none }).playTok = none ∨
            (tdm_play { s with delayTok := none }).playTok = some Cb.loopCb
        rw [(play_frame { s with delayTok := none }).2.1]
        exact hp
    · rw [loop_callback_paused cfg _ (by simpa using hpf)]
      simp only [ne_eq, not_true_eq_false, if_false, not_not]
      have hdt := play_paused_loop { s with delayTok := none } hm0 (by simpa using hpf)
      refine ⟨(play_frame { s with delayTok := none }).1.trans hm, ?_,
        Or.inr hdt, Or.inr hdt⟩
      rw [(play_frame { s with delayTok := none }).2.1]
      exact hp

/-- A scheduler run: each step fires whatever is pending in play_token
(true) or delay_token (false). -/
def runFires (cfg : TDMConfig) (l : List Bool) (s : TDMState) : TDMState :=
  l.foldl (fun t b => if b then fire_play_token cfg t else fire_delay_token cfg t) s

lemma loopInv_runFires (cfg : TDMConfig) (l : List Bool) (s : TDMState)
    (h : LoopInv s) : LoopInv (runFires cfg l s) := by
  induction l generalizing s with
  | nil => simpa [runFires] using h
  | cons b t ih =>
    simp only [runFires, List.foldl_cons]
    cases b
    · exact ih _ (fire_delay_token_loopInv cfg s h)
    · exact ih _ (fire_play_token_loopInv cfg s h)

/-- Entering looping from a quiescent idle state establishes the loop
invariant. -/
lemma loop_entry_loopInv (cfg : TDMConfig) (s : TDMState)
    (h1 : s.mode = State.idle) (h2 : s.playTok = none) (h3 : s.delayTok = none) :
    LoopInv (tdm_state_transition cfg State.looping s).1 := by
  simp only [tdm_state_transition, h1, transition_matrix]
  refine ⟨?_, Or.inr ?_, ?_, Or.inl ?_⟩ <;>
    simp [tdm_loop_start, tdm_reset_iterator, h2, h3]

/-- C9 (confirmed): starting a loop from a quiescent idle state, across
every sequence of loop-callback and delay-callback firings the mode stays
looping (so idle is never reached without an explicit stop transition), and
a loop continuation is always left pending — completion reschedules another
iteration instead of transitioning to idle. -/
theorem c9_loop_never_self_idle (cfg : TDMConfig) (s : TDMState) (l : List Bool)
    (h1 : s.mode = State.idle) (h2 : s.playTok = none) (h3 : s.delayTok = none) :
    (runFires cfg l (tdm_state_transition cfg State.looping s).1).mode = State.looping ∧
    ((runFires cfg l (tdm_state_transition cfg State.looping s).1).playTok = some Cb.loopCb ∨
     (runFires cfg l (tdm_state_transition cfg State.looping s).1).delayTok = some Cb.loopCb) := by
  have h := loopInv_runFires cfg l _ (loop_entry_loopInv cfg s h1 h2 h3)
  exact ⟨h.1, h.2.2.2⟩

/-- Witness for C9 from the initial state with a play-slot firing followed
by a delay-slot firing. -/
theorem c9_loop_never_self_idle_witness :
    (initState cfg4).mode = State.idle ∧ (initState cfg4).playTok = none ∧
    (initState cfg4).delayTok = none ∧
    ((runFires cfg4 [true, false]
        (tdm_state_transition cfg4 State.looping (initState cfg4)).1).mode = State.looping ∧
     ((runFires cfg4 [true, false]
        (tdm_state_transition cfg4 State.looping (initState cfg4)).1).playTok = some Cb.loopCb ∨
      (runFires cfg4 [true, false]
        (tdm_state_transition cfg4 State.looping (initState cfg4)).1).delayTok = some Cb.loopCb)) :=
  ⟨rfl, rfl, rfl,
   c9_loop_never_self_idle cfg4 (initState cfg4) [true, false] rfl rfl rfl⟩

/-! ## C1: the non-overlap invariant -/

/-- Sanity of the stored slot ends: slot 0 never below its start, slot 1
never past its start, and the two occupied ranges separated (ends0 at most
one past ends1, which with the half-open/half-closed ranges below means
disjointness). -/
def EndsInv (cfg : TDMConfig) (s : TDMState) : Prop :=
  0 ≤ s.ends0 ∧ s.ends1 ≤ (cfg.bufferSize : Int) ∧ s.ends0 ≤ s.ends1 + 1

/-- What a live recording session guarantees about the cursor. -/
def SessionData (cfg : TDMConfig) (s : TDMState) : Prop :=
  (s.macro_id = 0 ∧ s.dir = 1 ∧ s.mstart = 0 ∧ 0 ≤ s.iter ∧ s.iter ≤ s.ends1 + 1) ∨
  (s.macro_id = 1 ∧ s.dir = -1 ∧ s.mstart = (cfg.bufferSize : Int) ∧
    s.ends0 - 1 ≤ s.iter ∧ s.iter ≤ (cfg.bufferSize : Int))

/-- The reachability invariant: ends sane, slot id in range, a recording
session satisfies SessionData, and a pending deferred callback implies a
playback mode. -/
def Inv (cfg : TDMConfig) (s : TDMState) : Prop :=
  EndsInv cfg s ∧ s.macro_id < 2 ∧
  ((s.mode = State.recording ∨ s.mode = State.recording_delay) → SessionData cfg s) ∧
  ((s.playTok ≠ none ∨ s.delayTok ≠ none) →
    s.mode = State.playing ∨ s.mode = State.looping)

lemma trim_go_bounds_pos (cond : Keypress → Bool) (buf : Int → Keypress) :
    ∀ (n : Nat) (i : Int),
      i - n ≤ trim_go cond buf 1 n i ∧ trim_go cond buf 1 n i ≤ i := by
  intro n
  induction n with
  | zero => intro i; simp [trim_go]
  | succ n ih =>
    intro i
    rw [trim_go]
    split
    · have h := ih (i - 1)
      push_cast
      push_cast at h
      omega
    · push_cast
      omega

lemma trim_go_bounds_neg (cond : Keypress → Bool) (buf : Int → Keypress) :
    ∀ (n : Nat) (i : Int),
      i ≤ trim_go cond buf (-1) n i ∧ trim_go cond buf (-1) n i ≤ i + n := by
  intro n
  induction n with
  | zero => intro i; simp [trim_go]
  | succ n ih =>
    intro i
    rw [trim_go]
    split
    · have h := ih (i + 1)
      have hsub : i - (-1) = i + 1 := by omega
      rw [hsub]
      push_cast
      push_cast at h
      omega
    · push_cast
      omega

lemma trim_back_bounds_pos (cond : Keypress → Bool) (s : TDMState)
    (hdir : s.dir = 1) (hms : s.mstart = 0) (hi : 0 ≤ s.iter) :
    0 ≤ trim_back cond s ∧ trim_back cond s ≤ s.iter := by
  unfold trim_back
  rw [hdir, hms]
  have h := trim_go_bounds_pos cond s.buf ((1 * (s.iter - 0)).toNat) s.iter
  omega

lemma trim_back_bounds_neg (cond : Keypress → Bool) (s : TDMState)
    (hdir : s.dir = -1) (hms : s.mstart = (cfgSize : Int))
    (hi : s.iter ≤ (cfgSize : Int)) :
    s.iter ≤ trim_back cond s ∧ trim_back cond s ≤ (cfgSize : Int) := by
  unfold trim_back
  rw [hdir, hms]
  have h := trim_go_bounds_neg cond s.buf ((-1 * (s.iter - (cfgSize : Int))).toNat) s.iter
  omega

lemma setEnd_iter_comm (s : TDMState) (i : Nat) (v x : Int) :
    { setEnd s i v with iter := x } = setEnd { s with iter := x } i v := by
  unfold setEnd; split <;> rfl

lemma setEnd_setEnd (s : TDMState) (i : Nat) (a b : Int) :
    setEnd (setEnd s i a) i b = setEnd s i b := by
  unfold setEnd; split <;> rfl

lemma trim_back_setEnd (cond : Keypress → Bool) (s : TDMState) (i : Nat) (v : Int) :
    trim_back cond (setEnd s i v) = trim_back cond s := by
  unfold trim_back
  simp

/-- tdm_record_end as a single state update: trim the iterator, store it as
the slot end. -/
lemma record_end_eq (cfg : TDMConfig) (s : TDMState) :
    tdm_record_end cfg s =
      setEnd { s with iter := trim_back (trim_end_cond cfg) s } s.macro_id
        (trim_back (trim_end_cond cfg) s) := by
  by_cases h : s.macro_id % 2 = 0 <;>
    simp [tdm_record_end, print_macros_sync, setEnd, h, trim_back]

/-- EndsInv and SessionData survive tdm_record_end, which touches only the
iterator and the active slot end. -/
lemma record_end_core (cfg : TDMConfig) (s : TDMState)
    (hE : EndsInv cfg s) (hsd : SessionData cfg s) :
    EndsInv cfg (tdm_record_end cfg s) ∧ SessionData cfg (tdm_record_end cfg s) ∧
    (tdm_record_end cfg s).mode = s.mode ∧
    (tdm_record_end cfg s).macro_id = s.macro_id ∧
    (tdm_record_end cfg s).playTok = s.playTok ∧
    (tdm_record_end cfg s).delayTok = s.delayTok ∧
    (tdm_record_end cfg s).delay_acc = s.delay_acc ∧
    (tdm_record_end cfg s).got_first_keydown = s.got_first_keydown := by
  obtain ⟨hE0, hE1, hE2⟩ := hE
  rw [record_end_eq]
  rcases hsd with ⟨hid, hdir, hms, hlo, hhi⟩ | ⟨hid, hdir, hms, hlo, hhi⟩
  · have hb := trim_back_bounds_pos (trim_end_cond cfg) s hdir hms hlo
    rw [hid]
    refine ⟨⟨?_, ?_, ?_⟩, Or.inl ⟨?_, ?_, ?_, ?_, ?_⟩, ?_, ?_, ?_, ?_, ?_, ?_⟩ <;>
      simp [setEnd] <;> omega
  · have hb := trim_back_bounds_neg (trim_end_cond cfg) s hdir hms hhi
    rw [hid]
    refine ⟨⟨?_, ?_, ?_⟩, Or.inr ⟨?_, ?_, ?_, ?_, ?_⟩, ?_, ?_, ?_, ?_, ?_, ?_⟩ <;>
      simp [setEnd] <;> omega

lemma tokens_none_aux (s : TDMState)
    (htok : (s.playTok ≠ none ∨ s.delayTok ≠ none) →
      s.mode = State.playing ∨ s.mode = State.looping)
    (hm1 : s.mode ≠ State.playing) (hm2 : s.mode ≠ State.looping) :
    s.playTok = none ∧ s.delayTok = none := by
  constructor
  · by_contra hp
    rcases htok (Or.inl hp) with h1 | h1
    · exact hm1 h1
    · exact hm2 h1
  · by_contra hd
    rcases htok (Or.inr hd) with h1 | h1
    · exact hm1 h1
    · exact hm2 h1

lemma inv_record_start (cfg : TDMConfig) (s : TDMState) (h : Inv cfg s)
    (hm : s.mode = State.idle) :
    Inv cfg (tdm_record_start cfg { s with mode := State.recording }) := by
  obtain ⟨⟨hE0, hE1, hE2⟩, hid, hsess, htok⟩ := h
  have htn := tokens_none_aux s htok (by simp [hm]) (by simp [hm])
  refine ⟨⟨hE0, hE1, hE2⟩, hid, ?_, ?_⟩
  · intro _
    rcases (by omega : s.macro_id = 0 ∨ s.macro_id = 1) with h0 | h0
    · refine Or.inl ⟨?_, ?_, ?_, ?_, ?_⟩ <;>
        simp [tdm_record_start, tdm_reset_iterator, direction_of, current_start, h0] <;>
        omega
    · refine Or.inr ⟨?_, ?_, ?_, ?_, ?_⟩ <;>
        simp [tdm_record_start, tdm_reset_iterator, direction_of, current_start, h0] <;>
        omega
  · intro hp
    exfalso
    rcases hp with hp | hp
    · exact hp htn.1
    · exact hp htn.2

lemma inv_delay_start (cfg : TDMConfig) (s : TDMState) (h : Inv cfg s)
    (hm : s.mode = State.recording) :
    Inv cfg (tdm_record_delay_start cfg { s with mode := State.recording_delay }) := by
  obtain ⟨⟨hE0, hE1, hE2⟩, hid, hsess, htok⟩ := h
  have hsd := hsess (Or.inl hm)
  have htn := tokens_none_aux s htok (by simp [hm]) (by simp [hm])
  rcases hsd with ⟨h0, hdir, hms, hlo, hhi⟩ | ⟨h0, hdir, hms, hlo, hhi⟩
  · have hb := trim_back_bounds_pos (fun r => tdm_is_layer_key cfg r.keycode)
      { s with mode := State.recording_delay, delay_acc := 0 } hdir hms hlo
    simp [h0, hdir, hms, htn.1, htn.2] at hb
    refine ⟨⟨?_, ?_, ?_⟩, ?_, fun _ => Or.inl ⟨?_, ?_, ?_, ?_, ?_⟩, ?_⟩ <;>
      simp [tdm_record_delay_start, h0, hdir, hms, htn.1, htn.2] <;>
      omega
  · have hb := trim_back_bounds_neg (fun r => tdm_is_layer_key cfg r.keycode)
      { s with mode := State.recording_delay, delay_acc := 0 } hdir hms hhi
    simp [h0, hdir, hms, htn.1, htn.2] at hb
    refine ⟨⟨?_, ?_, ?_⟩, ?_, fun _ => Or.inr ⟨?_, ?_, ?_, ?_, ?_⟩, ?_⟩ <;>
      simp [tdm_record_delay_start, h0, hdir, hms, htn.1, htn.2] <;>
      omega

lemma inv_delay_end (cfg : TDMConfig) (s : TDMState) (h : Inv cfg s)
    (hm : s.mode = State.recording_delay) :
    Inv cfg (tdm_record_delay_end { s with mode := State.recording }) := by
  obtain ⟨⟨hE0, hE1, hE2⟩, hid, hsess, htok⟩ := h
  have hsd := hsess (Or.inr hm)
  have htn := tokens_none_aux s htok (by simp [hm]) (by simp [hm])
  rcases hsd with ⟨h0, hdir, hms, hlo, hhi⟩ | ⟨h0, hdir, hms, hlo, hhi⟩
  · refine ⟨⟨?_, ?_, ?_⟩, ?_, fun _ => Or.inl ⟨?_, ?_, ?_, ?_, ?_⟩, ?_⟩ <;>
      simp [tdm_record_delay_end, print_macros_sync, setEnd, h0, hdir, hms,
        htn.1, htn.2] <;>
      omega
  · refine ⟨⟨?_, ?_, ?_⟩, ?_, fun _ => Or.inr ⟨?_, ?_, ?_, ?_, ?_⟩, ?_⟩ <;>
      simp [tdm_record_delay_end, print_macros_sync, setEnd, h0, hdir, hms,
        htn.1, htn.2] <;>
      omega

lemma inv_record_end_action (cfg : TDMConfig) (s : TDMState) (h : Inv cfg s)
    (hm : s.mode = State.recording) :
    Inv cfg (tdm_record_end cfg { s with mode := State.idle }) := by
  obtain ⟨hE, hid, hsess, htok⟩ := h
  have hsd := hsess (Or.inl hm)
  have htn := tokens_none_aux s htok (by simp [hm]) (by simp [hm])
  have hc := record_end_core cfg { s with mode := State.idle } hE hsd
  refine ⟨hc.1, ?_, ?_, ?_⟩
  · rw [hc.2.2.2.1]; exact hid
  · intro hmode
    rw [hc.2.2.1] at hmode
    simp at hmode
  · intro hp
    exfalso
    rcases hp with hp | hp
    · rw [hc.2.2.2.2.1] at hp; exact hp htn.1
    · rw [hc.2.2.2.2.2.1] at hp; exact hp htn.2

lemma inv_record_key (cfg : TDMConfig) (k : Nat) (p : Bool) (s : TDMState)
    (h : Inv cfg s) (hm : s.mode = State.recording) :
    Inv cfg (tdm_record_key cfg k p s) := by
  obtain ⟨⟨hE0, hE1, hE2⟩, hid, hsess, htok⟩ := h
  have hsd := hsess (Or.inl hm)
  have htn := tokens_none_aux s htok (by simp [hm]) (by simp [hm])
  simp only [tdm_record_key]
  split
  · exact ⟨⟨hE0, hE1, hE2⟩, hid, hsess, htok⟩
  · split
    · -- collision guard fired: tdm_record_end, the mode stays recording
      have hc := record_end_core cfg { s with got_first_keydown := true }
        ⟨hE0, hE1, hE2⟩ hsd
      refine ⟨hc.1, ?_, ?_, ?_⟩
      · rw [hc.2.2.2.1]; exact hid
      · intro _
        exact hc.2.1
      · intro hp
        rcases hp with hp | hp
        · rw [hc.2.2.2.2.1] at hp; exact absurd htn.1 hp
        · rw [hc.2.2.2.2.2.1] at hp; exact absurd htn.2 hp
    · rename_i hne
      rcases hsd with ⟨h0, hdir, hms, hlo, hhi⟩ | ⟨h0, hdir, hms, hlo, hhi⟩
      · simp [endOf, neighbor, h0, hdir] at hne
        refine ⟨⟨?_, ?_, ?_⟩, ?_, fun _ => Or.inl ⟨?_, ?_, ?_, ?_, ?_⟩, ?_⟩ <;>
          simp [print_macros_sync, setEnd, h0, hdir, hms, htn.1, htn.2, hm] <;>
          omega
      · simp [endOf, neighbor, h0, hdir] at hne
        refine ⟨⟨?_, ?_, ?_⟩, ?_, fun _ => Or.inr ⟨?_, ?_, ?_, ?_, ?_⟩, ?_⟩ <;>
          simp [print_macros_sync, setEnd, h0, hdir, hms, htn.1, htn.2, hm] <;>
          omega

lemma inv_record_delay (cfg : TDMConfig) (k : Nat) (s : TDMState) (h : Inv cfg s) :
    Inv cfg (tdm_record_delay k s) := by
  obtain ⟨hE, hid, hsess, htok⟩ := h
  unfold tdm_record_delay
  split
  · exact ⟨hE, hid, hsess, htok⟩
  · split
    · exact ⟨hE, hid, hsess, htok⟩
    · exact ⟨hE, hid, fun hmode => hsess hmode, fun hp => htok hp⟩

lemma inv_select_key (cfg : TDMConfig) (k : Nat) (s : TDMState) (h : Inv cfg s) :
    Inv cfg (tdm_select_key k s) := by
  obtain ⟨hE, hid, hsess, htok⟩ := h
  unfold tdm_select_key
  split
  · exact ⟨hE, hid, hsess, htok⟩
  · split
    · exact ⟨hE, hid, hsess, htok⟩
    · exact ⟨hE, hid, fun hmode => hsess hmode, fun hp => htok hp⟩

lemma inv_select_start (cfg : TDMConfig) (s : TDMState) (h : Inv cfg s)
    (hm : s.mode = State.idle) :
    Inv cfg (tdm_select_start { s with mode := State.selecting }) := by
  obtain ⟨hE, hid, hsess, htok⟩ := h
  have htn := tokens_none_aux s htok (by simp [hm]) (by simp [hm])
  refine ⟨hE, hid, ?_, ?_⟩
  · intro hmode
    simp [tdm_select_start] at hmode
  · intro hp
    exfalso
    rcases hp with hp | hp
    · exact hp htn.1
    · exact hp htn.2

lemma inv_select_end (cfg : TDMConfig) (s : TDMState) (h : Inv cfg s)
    (hm : s.mode = State.selecting) :
    Inv cfg (tdm_select_end { s with mode := State.idle }) := by
  obtain ⟨hE, hid, hsess, htok⟩ := h
  have htn := tokens_none_aux s htok (by simp [hm]) (by simp [hm])
  unfold tdm_select_end
  split
  · refine ⟨hE, by simp, ?_, ?_⟩
    · intro hmode
      simp at hmode
    · intro hp
      exfalso
      rcases hp with hp | hp
      · exact hp htn.1
      · exact hp htn.2
  · rename_i hsel
    simp at hsel
    refine ⟨hE, by simp; omega, ?_, ?_⟩
    · intro hmode
      simp at hmode
    · intro hp
      exfalso
      rcases hp with hp | hp
      · exact hp htn.1
      · exact hp htn.2

lemma inv_play_stop (cfg : TDMConfig) (s : TDMState) (h : Inv cfg s) :
    Inv cfg (tdm_play_stop { s with mode := State.idle }) := by
  obtain ⟨hE, hid, hsess, htok⟩ := h
  refine ⟨hE, hid, ?_, ?_⟩
  · intro hmode
    simp [tdm_play_stop, tdm_clear_tokens] at hmode
  · intro hp
    exfalso
    rcases hp with hp | hp
    · exact hp rfl
    · exact hp rfl

lemma inv_loop_start (cfg : TDMConfig) (s : TDMState) (h : Inv cfg s) :
    Inv cfg (tdm_loop_start cfg { s with mode := State.looping }) := by
  obtain ⟨hE, hid, hsess, htok⟩ := h
  simp only [tdm_loop_start]
  split <;>
    refine ⟨hE, hid, ?_, fun _ => ?_⟩ <;>
    simp [tdm_reset_iterator, tdm_clear_tokens]

lemma inv_play (cfg : TDMConfig) (s : TDMState) (h : Inv cfg s)
    (hm : s.mode = State.playing ∨ s.mode = State.looping) :
    Inv cfg (tdm_play s) := by
  obtain ⟨⟨hE0, hE1, hE2⟩, hid, hsess, htok⟩ := h
  have hfr := play_frame s
  refine ⟨⟨?_, ?_, ?_⟩, ?_, ?_, ?_⟩
  · rw [hfr.2.2.2.1]; exact hE0
  · rw [hfr.2.2.2.2.1]; exact hE1
  · rw [hfr.2.2.2.1, hfr.2.2.2.2.1]; exact hE2
  · rw [hfr.2.2.2.2.2.1]; exact hid
  · intro hmode
    rw [hfr.1] at hmode
    rcases hm with hm | hm <;> rcases hmode with hmode | hmode <;>
      rw [hm] at hmode <;> cases hmode
  · intro _
    rw [hfr.1]
    exact hm

lemma inv_play_start (cfg : TDMConfig) (s : TDMState) (h : Inv cfg s)
    (hm : s.mode = State.idle) :
    Inv cfg (tdm_play_start cfg { s with mode := State.playing }) := by
  obtain ⟨⟨hE0, hE1, hE2⟩, hid, hsess, htok⟩ := h
  simp only [tdm_play_start]
  set t := tdm_reset_iterator cfg { s with mode := State.playing } with ht
  have hfr := play_frame t
  have hm1 : t.mode = State.playing := by rw [ht]; simp [tdm_reset_iterator]
  have he0 : t.ends0 = s.ends0 := by rw [ht]; simp [tdm_reset_iterator]
  have he1 : t.ends1 = s.ends1 := by rw [ht]; simp [tdm_reset_iterator]
  have hmid : t.macro_id = s.macro_id := by rw [ht]; simp [tdm_reset_iterator]
  split
  · refine ⟨⟨?_, ?_, ?_⟩, ?_, ?_, ?_⟩
    · show (0 : Int) ≤ (tdm_play t).ends0
      rw [hfr.2.2.2.1, he0]; exact hE0
    · show (tdm_play t).ends1 ≤ (cfg.bufferSize : Int)
      rw [hfr.2.2.2.2.1, he1]; exact hE1
    · show (tdm_play t).ends0 ≤ (tdm_play t).ends1 + 1
      rw [hfr.2.2.2.1, he0, hfr.2.2.2.2.1, he1]; exact hE2
    · show (tdm_play t).macro_id < 2
      rw [hfr.2.2.2.2.2.1, hmid]; exact hid
    · intro hmode
      simp [tdm_play_stop, tdm_clear_tokens] at hmode
    · intro hp
      exfalso
      rcases hp with hp | hp
      · exact hp rfl
      · exact hp rfl
  · refine ⟨⟨?_, ?_, ?_⟩, ?_, ?_, ?_⟩
    · rw [hfr.2.2.2.1, he0]; exact hE0
    · rw [hfr.2.2.2.2.1, he1]; exact hE1
    · rw [hfr.2.2.2.1, he0, hfr.2.2.2.2.1, he1]; exact hE2
    · rw [hfr.2.2.2.2.2.1, hmid]; exact hid
    · intro hmode
      rw [hfr.1, hm1] at hmode
      rcases hmode with hmode | hmode <;> cases hmode
    · intro _
      exact Or.inl (hfr.1.trans hm1)

lemma inv_transition (cfg : TDMConfig) (n : State) (s : TDMState) (h : Inv cfg s) :
    Inv cfg (tdm_state_transition cfg n s).1 := by
  cases hm : s.mode <;> cases n <;>
    simp only [tdm_state_transition, transition_matrix, hm]
  case recording.recording_delay => exact inv_delay_start cfg s h hm
  case recording.idle => exact inv_record_end_action cfg s h hm
  case recording_delay.recording => exact inv_delay_end cfg s h hm
  case playing.idle => exact inv_play_stop cfg s h
  case looping.looping => exact inv_loop_start cfg s h
  case looping.idle => exact inv_play_stop cfg s h
  case selecting.idle => exact inv_select_end cfg s h hm
  case idle.recording => exact inv_record_start cfg s h hm
  case idle.playing => exact inv_play_start cfg s h hm
  case idle.looping => exact inv_loop_start cfg s h
  case idle.selecting => exact inv_select_start cfg s h hm
  all_goals exact h

lemma inv_process (cfg : TDMConfig) (k : Nat) (p : Bool) (s : TDMState)
    (h : Inv cfg s) : Inv cfg (process_tdm cfg k p s).1 := by
  unfold process_tdm
  split
  · split
    · exact inv_transition cfg _ s h
    · exact h
  · split
    · exact h
    · split
      · exact h
      · -- recording
        rename_i hmode
        split
        · exact inv_record_key cfg k p s h hmode
        · split
          · exact inv_transition cfg _ s h
          · exact h
      · -- recording_delay
        split
        · exact inv_record_delay cfg k s h
        · split
          · exact inv_transition cfg _ s h
          · exact h
      · -- selecting
        split
        · exact h
        · split
          · exact inv_select_key cfg k s h
          · exact inv_transition cfg _ s h
      · exact h

lemma inv_reset_iterator_play (cfg : TDMConfig) (t : TDMState) (h : Inv cfg t)
    (hm : t.mode = State.playing ∨ t.mode = State.looping) :
    Inv cfg (tdm_reset_iterator cfg t) := by
  obtain ⟨hE, hid, hsess, htok⟩ := h
  refine ⟨hE, hid, ?_, ?_⟩
  · intro hmode
    simp only [tdm_reset_iterator] at hmode
    rcases hm with hm | hm <;> rcases hmode with h2 | h2 <;> rw [hm] at h2 <;> cases h2
  · intro _
    simp only [tdm_reset_iterator]
    exact hm

lemma inv_clear_tokens (cfg : TDMConfig) (s : TDMState) (h : Inv cfg s) :
    Inv cfg (tdm_clear_tokens s) := by
  obtain ⟨hE, hid, hsess, htok⟩ := h
  refine ⟨hE, hid, fun hmode => hsess hmode, ?_⟩
  intro hp
  rcases hp with hp | hp <;> exact absurd rfl hp

lemma inv_run_callback (cfg : TDMConfig) (cb : Cb) (s : TDMState) (h : Inv cfg s)
    (hm : s.mode = State.playing ∨ s.mode = State.looping) :
    Inv cfg (run_callback cfg cb s).1 := by
  cases cb
  · simp only [run_callback, tdm_loop_callback]
    split
    · refine inv_reset_iterator_play cfg (tdm_play s) (inv_play cfg s h hm) ?_
      rw [(play_frame s).1]
      exact hm
    · exact inv_play cfg s h hm
  · simp only [run_callback, tdm_delay_callback]
    split
    · exact inv_clear_tokens cfg _
        (inv_transition cfg State.idle (tdm_play s) (inv_play cfg s h hm))
    · exact inv_play cfg s h hm

lemma delay_callback_snd (cfg : TDMConfig) (t : TDMState) :
    (tdm_delay_callback cfg t).2 = 0 := by
  simp only [tdm_delay_callback]
  split <;> rfl

lemma loop_callback_mode (cfg : TDMConfig) (t : TDMState) :
    (tdm_loop_callback cfg t).1.mode = t.mode := by
  simp only [tdm_loop_callback]
  split
  · simp [tdm_reset_iterator, (play_frame t).1]
  · exact (play_frame t).1

lemma inv_fire_play (cfg : TDMConfig) (s : TDMState) (h : Inv cfg s) :
    Inv cfg (fire_play_token cfg s) := by
  rcases htok : s.playTok with _ | cb
  · rw [fire_play_token_none cfg s htok]
    exact h
  · have hm : s.mode = State.playing ∨ s.mode = State.looping :=
      h.2.2.2 (Or.inl (by rw [htok]; simp))
    have h' : Inv cfg { s with playTok := none } :=
      ⟨h.1, h.2.1, fun hmode => h.2.2.1 hmode, fun _ => hm⟩
    have hrc := inv_run_callback cfg cb { s with playTok := none } h' hm
    rw [fire_play_token_some cfg s cb htok]
    split
    · rename_i hr
      cases cb
      · have hmode1 : (run_callback cfg Cb.loopCb { s with playTok := none }).1.mode = s.mode :=
          loop_callback_mode cfg { s with playTok := none }
        refine ⟨hrc.1, hrc.2.1, fun hmode => hrc.2.2.1 hmode, fun _ => ?_⟩
        rcases hm with hm | hm
        · exact Or.inl (hmode1.trans hm)
        · exact Or.inr (hmode1.trans hm)
      · rw [show (run_callback cfg Cb.delayCb { s with playTok := none }).2 = 0 from
          delay_callback_snd cfg { s with playTok := none }] at hr
        exact absurd rfl hr
    · exact hrc

lemma inv_fire_delay (cfg : TDMConfig) (s : TDMState) (h : Inv cfg s) :
    Inv cfg (fire_delay_token cfg s) := by
  rcases htok : s.delayTok with _ | cb
  · rw [fire_delay_token_none cfg s htok]
    exact h
  · have hm : s.mode = State.playing ∨ s.mode = State.looping :=
      h.2.2.2 (Or.inr (by rw [htok]; simp))
    have h' : Inv cfg { s with delayTok := none } :=
      ⟨h.1, h.2.1, fun hmode => h.2.2.1 hmode, fun _ => hm⟩
    have hrc := inv_run_callback cfg cb { s with delayTok := none } h' hm
    rw [fire_delay_token_some cfg s cb htok]
    split
    · rename_i hr
      cases cb
      · have hmode1 : (run_callback cfg Cb.loopCb { s with delayTok := none }).1.mode = s.mode :=
          loop_callback_mode cfg { s with delayTok := none }
        refine ⟨hrc.1, hrc.2.1, fun hmode => hrc.2.2.1 hmode, fun _ => ?_⟩
        rcases hm with hm | hm
        · exact Or.inl (hmode1.trans hm)
        · exact Or.inr (hmode1.trans hm)
      · rw [show (run_callback cfg Cb.delayCb { s with delayTok := none }).2 = 0 from
          delay_callback_snd cfg { s with delayTok := none }] at hr
        exact absurd rfl hr
    · exact hrc

lemma inv_step (cfg : TDMConfig) (e : Ev) (s : TDMState) (h : Inv cfg s) :
    Inv cfg (stepEv cfg e s) := by
  cases e with
  | key k pr => exact inv_process cfg k pr s h
  | fireP => exact inv_fire_play cfg s h
  | fireD => exact inv_fire_delay cfg s h

lemma inv_runEvs (cfg : TDMConfig) (l : List Ev) (s : TDMState) (h : Inv cfg s) :
    Inv cfg (runEvs cfg l s) := by
  induction l generalizing s with
  | nil => simpa [runEvs] using h
  | cons e tl ih =>
    simp only [runEvs, List.foldl_cons]
    exact ih (stepEv cfg e s) (inv_step cfg e s h)

lemma inv_init (cfg : TDMConfig) : Inv cfg (initState cfg) := by
  refine ⟨⟨?_, ?_, ?_⟩, ?_, ?_, ?_⟩ <;>
    simp [initState, reset_state, current_start] <;>
    omega

/-- The occupied index range of slot 0: [0, ends0). -/
def occupied0 (s : TDMState) : Set Int := Set.Ico 0 s.ends0

/-- The occupied index range of slot 1: (ends1, bufferSize] (slot 1 grows
downward from index bufferSize, its end pointing at the next free cell). -/
def occupied1 (cfg : TDMConfig) (s : TDMState) : Set Int :=
  Set.Ioc s.ends1 (cfg.bufferSize : Int)

/-- C1 (amended): across every sequence of operations from initialization —
device events through the entry point (recording, ending a recording, delay
entry, selection) and deferred-callback firings (playback) — the occupied
index ranges of the two slots sharing the region never intersect.  (The
second half of the original claim, that no operation ever writes into a
record of the neighbor occupied range, is refuted by
c1_neighbor_record_clobbered: the defensive clearing of the new write head
can zero a record the neighbor occupies.) -/
theorem c1_occupied_ranges_disjoint (cfg : TDMConfig) (l : List Ev) :
    Disjoint (occupied0 (runEvs cfg l (initState cfg)))
      (occupied1 cfg (runEvs cfg l (initState cfg))) := by
  have h := inv_runEvs cfg l (initState cfg) (inv_init cfg)
  have hle := h.1.2.2
  rw [Set.disjoint_left]
  intro a ha hb
  simp only [occupied0, Set.mem_Ico] at ha
  simp only [occupied1, Set.mem_Ioc] at hb
  omega

/-! ## C3: round trip of a recorded sequence -/

/-- The input sequence with its maximal trailing run of release events
removed (what end-recording keeps of a sequence of ordinary keys). -/
def dropTrailingReleases (l : List (Nat × Bool)) : List (Nat × Bool) :=
  l.rdropWhile (fun e => !e.2)

lemma dtr_release (l : List (Nat × Bool)) (k : Nat) :
    dropTrailingReleases (l ++ [(k, false)]) = dropTrailingReleases l :=
  List.rdropWhile_concat_pos _ _ _ (by simp)

lemma dtr_press (l : List (Nat × Bool)) (k : Nat) :
    dropTrailingReleases (l ++ [(k, true)]) = l ++ [(k, true)] :=
  List.rdropWhile_concat_neg _ _ _ (by simp)

lemma dtr_length_le (l : List (Nat × Bool)) :
    (dropTrailingReleases l).length ≤ l.length := by
  induction l using List.reverseRecOn with
  | nil => simp [dropTrailingReleases]
  | append_singleton l e ih =>
    rcases e with ⟨k, b⟩
    cases b
    · rw [dtr_release]
      simp only [List.length_append, List.length_singleton]
      omega
    · rw [dtr_press]

lemma dtr_getD (l : List (Nat × Bool)) (n : Nat)
    (hn : n < (dropTrailingReleases l).length) :
    l.getD n (0, false) = (dropTrailingReleases l).getD n (0, false) := by
  induction l using List.reverseRecOn with
  | nil => simp [dropTrailingReleases, List.rdropWhile_nil] at hn
  | append_singleton l e ih =>
    rcases e with ⟨k, b⟩
    cases b
    · rw [dtr_release] at hn ⊢
      rw [List.getD_append _ _ _ _ (lt_of_lt_of_le hn (dtr_length_le l))]
      exact ih hn
    · rw [dtr_press]

/-- The record that tdm_record_key stores for an event (keycode, pressed):
delay zeroed, only the pressed flag possibly set. -/
def recOf (e : Nat × Bool) : Keypress :=
  ⟨e.1, 0, if e.2 then 1 else 0⟩

/-- The state in the middle of recording the even slot 0 from a fresh
initialization, after the events of done have been stored. -/
def RecMid (cfg : TDMConfig) (done : List (Nat × Bool)) (s : TDMState) : Prop :=
  s.mode = State.recording ∧ s.macro_id = 0 ∧ s.dir = 1 ∧ s.mstart = 0 ∧
  s.iter = (done.length : Int) ∧ s.ends1 = (cfg.bufferSize : Int) ∧
  s.got_first_keydown = !done.isEmpty ∧
  s.delay_acc = 0 ∧ s.playTok = none ∧ s.delayTok = none ∧ s.emitted = [] ∧
  (∀ n : Nat, n < done.length → s.buf (n : Int) = recOf (done.getD n (0, false))) ∧
  (∀ i : Int, (done.length : Int) ≤ i ∨ i < 0 → s.buf i = ⟨0, 0, 0⟩)

lemma record_key_eq_write (cfg : TDMConfig) (k : Nat) (p : Bool) (s : TDMState)
    (hg : (!p && !s.got_first_keydown) = false)
    (hne : ¬(s.iter - s.dir =
      endOf { s with got_first_keydown := true } (neighbor s.macro_id))) :
    tdm_record_key cfg k p s =
      print_macros_sync
        { s with got_first_keydown := true,
                 buf := bufWrite
                   (bufWrite s.buf s.iter
                     (set_flag { s.buf s.iter with keycode := k } FLAG_pressed p))
                   (s.iter + s.dir)
                   (clear_flags
                     { bufWrite s.buf s.iter
                         (set_flag { s.buf s.iter with keycode := k } FLAG_pressed p)
                         (s.iter + s.dir) with delay_ms := 0 }),
                 iter := s.iter + s.dir } := by
  simp only [tdm_record_key, hg, Bool.false_eq_true, if_false]
  rw [if_neg hne]

lemma rec_key_step (cfg : TDMConfig) (done : List (Nat × Bool)) (e : Nat × Bool)
    (s : TDMState) (hmid : RecMid cfg done s)
    (hfirst : done = [] → e.2 = true)
    (hcap : done.length + 1 ≤ cfg.bufferSize) :
    RecMid cfg (done ++ [e]) (tdm_record_key cfg e.1 e.2 s) := by
  obtain ⟨hmode, hid, hdir, hms, hiter, he1, hgot, hacc, hpt, hdt, hem, hbuf, hzero⟩ := hmid
  have hguard : (!e.2 && !s.got_first_keydown) = false := by
    rcases hdone : done with _ | ⟨e0, tl⟩
    · rw [hfirst hdone]
      simp
    · rw [hgot, hdone]
      simp
  have hne : ¬(s.iter - s.dir =
      endOf { s with got_first_keydown := true } (neighbor s.macro_id)) := by
    rw [hiter, hdir, hid]
    simp only [neighbor, endOf]
    norm_num [he1]
    omega
  rw [record_key_eq_write cfg e.1 e.2 s hguard hne]
  have hz0 : s.buf (done.length : Int) = ⟨0, 0, 0⟩ :=
    hzero _ (Or.inl le_rfl)
  have hz1 : s.buf ((done.length : Int) + 1) = ⟨0, 0, 0⟩ :=
    hzero _ (Or.inl (by omega))
  refine ⟨?_, ?_, ?_, ?_, ?_, ?_, ?_, ?_, ?_, ?_, ?_, ?_, ?_⟩
  · simp [print_macros_sync, setEnd, hid, hmode]
  · simp [print_macros_sync, setEnd, hid]
  · simp [print_macros_sync, setEnd, hid, hdir]
  · simp [print_macros_sync, setEnd, hid, hms]
  · simp [print_macros_sync, setEnd, hid, hiter, hdir]
  · simp [print_macros_sync, setEnd, hid, he1]
  · simp [print_macros_sync, setEnd, hid]
  · simp [print_macros_sync, setEnd, hid, hacc]
  · simp [print_macros_sync, setEnd, hid, hpt]
  · simp [print_macros_sync, setEnd, hid, hdt]
  · simp [print_macros_sync, setEnd, hid, hem]
  · intro n hn
    simp only [List.length_append, List.length_singleton] at hn
    simp only [print_macros_sync, setEnd_buf]
    rw [hiter, hdir]
    by_cases hnd : n = done.length
    · subst hnd
      rw [List.getD_append_right _ _ _ _ le_rfl, Nat.sub_self, List.getD_cons_zero]
      simp only [bufWrite]
      have hc1 : ¬((done.length : Int) = (done.length : Int) + 1) := by omega
      rw [if_neg hc1, if_pos trivial, hz0]
      rcases e with ⟨k, b⟩
      cases b <;> simp [set_flag, recOf, FLAG_pressed]
    · have hlt : n < done.length := by omega
      rw [List.getD_append _ _ _ _ hlt]
      simp only [bufWrite]
      rw [if_neg (by push_cast; omega), if_neg (by push_cast; omega)]
      exact hbuf n hlt
  · intro i hi
    simp only [List.length_append, List.length_singleton] at hi
    push_cast at hi
    simp only [print_macros_sync, setEnd_buf]
    rw [hiter, hdir]
    by_cases hieq : i = (done.length : Int) + 1
    · subst hieq
      simp only [bufWrite]
      have hc2 : ¬((done.length : Int) + 1 = (done.length : Int)) := by omega
      rw [if_pos trivial, if_neg hc2, hz1]
      rfl
    · have hc3 : ¬(i = (done.length : Int)) := by omega
      simp only [bufWrite]
      rw [if_neg hieq, if_neg hc3]
      exact hzero i (by omega)

lemma rec_process_step (cfg : TDMConfig) (done : List (Nat × Bool)) (e : Nat × Bool)
    (s : TDMState) (hmid : RecMid cfg done s)
    (hc : tdm_is_control_key cfg e.1 = false)
    (hl : cfg.isLayerKey e.1 = false)
    (hu : cfg.isValidKeyUser e.1 = true)
    (hfirst : done = [] → e.2 = true)
    (hcap : done.length + 1 ≤ cfg.bufferSize) :
    RecMid cfg (done ++ [e]) (process_tdm cfg e.1 e.2 s).1 := by
  have hvk : tdm_is_valid_key cfg e.1 = true := by
    simp [tdm_is_valid_key, hc, hu]
  have h1 : process_tdm cfg e.1 e.2 s = (tdm_record_key cfg e.1 e.2 s, true) := by
    simp [process_tdm, hc, tdm_is_layer_key, hl, hmid.1, hvk]
  rw [h1]
  exact rec_key_step cfg done e s hmid hfirst hcap

lemma rec_run (cfg : TDMConfig) (evs : List (Nat × Bool)) (done : List (Nat × Bool))
    (s : TDMState) (hmid : RecMid cfg done s)
    (hks : ∀ e ∈ evs, tdm_is_control_key cfg e.1 = false ∧
      cfg.isLayerKey e.1 = false ∧ cfg.isValidKeyUser e.1 = true)
    (hfirst : done = [] → ∀ e0 ∈ evs.take 1, e0.2 = true)
    (hcap : done.length + evs.length ≤ cfg.bufferSize) :
    RecMid cfg (done ++ evs) (runEvs cfg (evs.map (fun e => Ev.key e.1 e.2)) s) := by
  induction evs generalizing done s with
  | nil => simpa [runEvs] using hmid
  | cons e tl ih =>
    simp only [List.map_cons, runEvs, List.foldl_cons]
    have h1 := rec_process_step cfg done e s hmid (hks e (by simp)).1
      (hks e (by simp)).2.1 (hks e (by simp)).2.2
      (fun hd => hfirst hd e (by simp))
      (by simp only [List.length_cons] at hcap; omega)
    have h2 := ih (done ++ [e]) _ h1
      (fun e2 he2 => hks e2 (List.mem_cons_of_mem e he2))
      (fun habs => absurd habs (by simp))
      (by simp at hcap ⊢; omega)
    simpa [runEvs, List.append_assoc, stepEv] using h2

lemma rec_start_state (cfg : TDMConfig) :
    RecMid cfg [] (runEvs cfg [Ev.key (TDM_RECORD cfg) false] (initState cfg)) := by
  have hck : tdm_is_control_key cfg (TDM_RECORD cfg) = true := by
    simp [tdm_is_control_key]
  have hst : keycode_to_state cfg (TDM_RECORD cfg) = State.recording := by
    simp [keycode_to_state, TDM_RECORD, TDM_DELAY]
  have h1 : process_tdm cfg (TDM_RECORD cfg) false (initState cfg) =
      ((tdm_state_transition cfg State.recording (initState cfg)).1, true) := by
    simp [process_tdm, hck, hst]
  have h2 : (tdm_state_transition cfg State.recording (initState cfg)).1 =
      tdm_record_start cfg { initState cfg with mode := State.recording } := by
    rfl
  simp only [runEvs, List.foldl_cons, List.foldl_nil, stepEv, h1, h2]
  refine ⟨?_, ?_, ?_, ?_, ?_, ?_, ?_, ?_, ?_, ?_, ?_, ?_, ?_⟩ <;>
    simp [tdm_record_start, tdm_reset_iterator, initState, reset_state,
      current_start, direction_of, endOf]

lemma trim_records (cfg : TDMConfig) (l : List (Nat × Bool)) (buf : Int → Keypress)
    (hbuf : ∀ n : Nat, n < l.length → buf (n : Int) = recOf (l.getD n (0, false)))
    (hks : ∀ e ∈ l, tdm_is_control_key cfg e.1 = false ∧ cfg.isLayerKey e.1 = false) :
    trim_go (trim_end_cond cfg) buf 1 l.length (l.length : Int) =
      ((dropTrailingReleases l).length : Int) := by
  induction l using List.reverseRecOn with
  | nil => simp [trim_go, dropTrailingReleases, List.rdropWhile_nil]
  | append_singleton l e ih =>
    have hlen : (l ++ [e]).length = l.length + 1 := by simp
    rw [hlen]
    have hidx : ((l.length + 1 : Nat) : Int) - 1 = (l.length : Int) := by
      push_cast
      ring
    simp only [trim_go]
    rw [hidx]
    have hb : buf (l.length : Int) = recOf e := by
      have h1 := hbuf l.length (by simp)
      have h2 : (l ++ [e]).getD l.length (0, false) = e := by
        rw [List.getD_append_right _ _ _ _ le_rfl, Nat.sub_self, List.getD_cons_zero]
      rw [h2] at h1
      exact h1
    rw [hb]
    have hbuf2 : ∀ n : Nat, n < l.length → buf (n : Int) = recOf (l.getD n (0, false)) := by
      intro n hn
      rw [hbuf n (by simp; omega), List.getD_append _ _ _ _ hn]
    have hks2 : ∀ e2 ∈ l, tdm_is_control_key cfg e2.1 = false ∧ cfg.isLayerKey e2.1 = false :=
      fun e2 he2 => hks e2 (List.mem_append_left _ he2)
    rcases e with ⟨k, b⟩
    have hkctl := hks (k, b) (List.mem_append_right _ (by simp))
    cases b
    · have hcond : trim_end_cond cfg (recOf (k, false)) = true := by
        simp [trim_end_cond, is_set, recOf, FLAG_pressed]
      rw [hcond, dtr_release]
      simp only [if_true]
      exact ih hbuf2 hks2
    · have hcond : trim_end_cond cfg (recOf (k, true)) = false := by
        simp [trim_end_cond, is_set, recOf, FLAG_pressed, tdm_is_layer_key,
          hkctl.1, hkctl.2]
      rw [hcond, dtr_press]
      simp

lemma play_go_run (n : Nat) (s : TDMState) (hdir : s.dir = 1)
    (hdelays : ∀ j : Int, s.iter < j → j ≤ s.iter + n → (s.buf j).delay_ms = 0) :
    tdm_play_go n s =
      { s with iter := s.iter + n, play_finished := true,
               emitted := s.emitted ++ (List.range n).map
                 (fun t : Nat => ((s.buf (s.iter + (t : Int))).keycode,
                   is_set (s.buf (s.iter + (t : Int))) FLAG_pressed)) } := by
  induction n generalizing s with
  | zero =>
    simp [tdm_play_go]
  | succ n ih =>
    simp only [tdm_play_go]
    rw [play_key_eq]
    have hd0 : (s.buf (s.iter + s.dir)).delay_ms = 0 := by
      rw [hdir]
      exact hdelays (s.iter + 1) (by omega) (by push_cast; omega)
    have hcond : ¬((s.buf (s.iter + s.dir)).delay_ms ≠ 0) := by
      simp [hd0]
    rw [if_neg hcond]
    have hih := ih { s with
        emitted := s.emitted ++ [((s.buf s.iter).keycode, is_set (s.buf s.iter) FLAG_pressed)],
        iter := s.iter + s.dir } hdir
      (by
        intro j hj1 hj2
        simp only at hj1 hj2 ⊢
        refine hdelays j (by rw [hdir] at hj1; omega) ?_
        rw [hdir] at hj2
        push_cast at hj2 ⊢
        omega)
    have hemit2 : (s.emitted ++ [((s.buf s.iter).keycode, is_set (s.buf s.iter) FLAG_pressed)]) ++
        (List.range n).map (fun t : Nat => ((s.buf (s.iter + s.dir + (t : Int))).keycode,
          is_set (s.buf (s.iter + s.dir + (t : Int))) FLAG_pressed)) =
        s.emitted ++ (List.range (n + 1)).map
          (fun t : Nat => ((s.buf (s.iter + (t : Int))).keycode,
                     is_set (s.buf (s.iter + (t : Int))) FLAG_pressed)) := by
      rw [List.range_succ_eq_map, List.map_cons, List.map_map, List.append_assoc]
      have hpt : ∀ u : Nat, s.iter + s.dir + (u : Int) = s.iter + ((u : Int) + 1) := by
        intro u
        rw [hdir]
        ring
      simp [Function.comp, hpt]
    rw [hih]
    congr 1
    show s.iter + s.dir + (n : Int) = s.iter + ((n + 1 : Nat) : Int)
    rw [hdir]
    push_cast
    ring

/-- C3 (amended): recording a sequence of ordinary press/release events into
slot 0 with no delays (fitting in the region, starting with a press, no
control or layer keys, allowed by the user hook) and playing it back emits
exactly the input sequence with its maximal trailing run of release events
removed: end-recording trims trailing releases, so the round trip is exact
precisely when the sequence ends in a press. -/
theorem c3_round_trip_emits_trimmed (cfg : TDMConfig) (evs : List (Nat × Bool))
    (hks : ∀ e ∈ evs, tdm_is_control_key cfg e.1 = false ∧
      cfg.isLayerKey e.1 = false ∧ cfg.isValidKeyUser e.1 = true)
    (hfirst : ∀ e0 ∈ evs.take 1, e0.2 = true)
    (hcap : evs.length ≤ cfg.bufferSize) :
    (runEvs cfg (([Ev.key (TDM_RECORD cfg) false] ++
        evs.map (fun e => Ev.key e.1 e.2)) ++
        [Ev.key (TDM_END cfg) false, Ev.key (TDM_PLAY cfg) false])
      (initState cfg)).emitted = dropTrailingReleases evs := by
  have hrun : ∀ (a b : List Ev) (s : TDMState),
      runEvs cfg (a ++ b) s = runEvs cfg b (runEvs cfg a s) := by
    intro a b s
    simp [runEvs, List.foldl_append]
  have hTm : (dropTrailingReleases evs).length ≤ evs.length := dtr_length_le evs
  have hmid : RecMid cfg evs (runEvs cfg ([Ev.key (TDM_RECORD cfg) false] ++
      evs.map (fun e => Ev.key e.1 e.2)) (initState cfg)) := by
    rw [hrun]
    have h := rec_run cfg evs [] _ (rec_start_state cfg) hks (fun _ => hfirst)
      (by simpa using hcap)
    simpa using h
  set s1 := runEvs cfg ([Ev.key (TDM_RECORD cfg) false] ++
      evs.map (fun e => Ev.key e.1 e.2)) (initState cfg) with hs1
  obtain ⟨hmode, hid, hdir, hms, hiter, he1, hgot, hacc, hpt, hdt, hem, hbuf, hzero⟩ := hmid
  have hckE : tdm_is_control_key cfg (TDM_END cfg) = true := by
    simp [tdm_is_control_key]
  have hstE : keycode_to_state cfg (TDM_END cfg) = State.idle := by
    simp [keycode_to_state, TDM_RECORD, TDM_DELAY, TDM_END]
  have hs2 : (process_tdm cfg (TDM_END cfg) false s1).1 =
      tdm_record_end cfg { s1 with mode := State.idle } := by
    simp [process_tdm, hckE, hstE, tdm_state_transition, hmode, transition_matrix]
  have htrim : trim_back (trim_end_cond cfg) { s1 with mode := State.idle } =
      ((dropTrailingReleases evs).length : Int) := by
    unfold trim_back
    dsimp only
    rw [hdir, hms, hiter]
    have hfuel : (((1 : Int) * ((evs.length : Int) - 0)).toNat) = evs.length := by
      omega
    rw [hfuel]
    exact trim_records cfg evs s1.buf hbuf
      (fun e he => ⟨(hks e he).1, (hks e he).2.1⟩)
  have hs2eq : (process_tdm cfg (TDM_END cfg) false s1).1 =
      { s1 with mode := State.idle,
                iter := ((dropTrailingReleases evs).length : Int),
                ends0 := ((dropTrailingReleases evs).length : Int) } := by
    rw [hs2, record_end_eq, htrim]
    simp [setEnd, hid]
  set s2 : TDMState := { s1 with mode := State.idle,
                                 iter := ((dropTrailingReleases evs).length : Int),
                                 ends0 := ((dropTrailingReleases evs).length : Int) } with
    hs2def
  have hs2mode : s2.mode = State.idle := by rw [hs2def]
  have hckP : tdm_is_control_key cfg (TDM_PLAY cfg) = true := by
    simp [tdm_is_control_key]
  have hstP : keycode_to_state cfg (TDM_PLAY cfg) = State.playing := by
    simp [keycode_to_state, TDM_RECORD, TDM_DELAY, TDM_END, TDM_PLAY]
  have hs3 : (process_tdm cfg (TDM_PLAY cfg) false s2).1 =
      tdm_play_start cfg { s2 with mode := State.playing } := by
    simp [process_tdm, hckP, hstP, tdm_state_transition, hs2mode, transition_matrix]
  set t : TDMState := tdm_reset_iterator cfg { s2 with mode := State.playing } with htdef
  have htf1 : t.dir = 1 := by
    rw [htdef, hs2def]
    simp [tdm_reset_iterator, direction_of, hid]
  have htf2 : t.mstart = 0 := by
    rw [htdef, hs2def]
    simp [tdm_reset_iterator, current_start, hid]
  have htf3 : t.iter = 0 := by
    rw [htdef, hs2def]
    simp [tdm_reset_iterator, current_start, hid]
  have htf4 : t.mend = ((dropTrailingReleases evs).length : Int) := by
    rw [htdef, hs2def]
    simp [tdm_reset_iterator, endOf, hid]
  have htf5 : t.buf = s1.buf := by
    rw [htdef, hs2def]
    simp [tdm_reset_iterator]
  have htf6 : t.emitted = [] := by
    rw [htdef, hs2def]
    simp [tdm_reset_iterator, hem]
  have hdelays : ∀ j : Int, t.iter < j →
      j ≤ t.iter + ((dropTrailingReleases evs).length : Nat) → (t.buf j).delay_ms = 0 := by
    intro j hj1 hj2
    rw [htf3] at hj1 hj2
    rw [htf5]
    have hjn : j = ((j.toNat : Nat) : Int) := by omega
    by_cases hcase : j.toNat < evs.length
    · rw [hjn, hbuf j.toNat hcase]
      simp [recOf]
    · rw [hjn, hzero _ (Or.inl (by omega))]
  have hplay : tdm_play t =
      { t with iter := t.iter + ((dropTrailingReleases evs).length : Int),
               play_finished := true,
               emitted := t.emitted ++ (List.range (dropTrailingReleases evs).length).map
                 (fun u : Nat => ((t.buf (t.iter + (u : Int))).keycode,
                   is_set (t.buf (t.iter + (u : Int))) FLAG_pressed)) } := by
    unfold tdm_play
    have hfuel : ((t.dir * (t.mend - t.iter)).toNat) = (dropTrailingReleases evs).length := by
      rw [htf1, htf3, htf4]
      omega
    rw [hfuel]
    exact play_go_run (dropTrailingReleases evs).length t htf1 hdelays
  have hlist : (List.range (dropTrailingReleases evs).length).map
      (fun u : Nat => ((s1.buf ((0 : Int) + (u : Int))).keycode,
        is_set (s1.buf ((0 : Int) + (u : Int))) FLAG_pressed)) =
      dropTrailingReleases evs := by
    apply List.ext_getElem
    · simp
    · intro n h1 h2
      simp only [List.getElem_map, List.getElem_range]
      have hn_m : n < evs.length := by
        simp only [List.length_map, List.length_range] at h1
        omega
      have hb := hbuf n hn_m
      have hza : (0 : Int) + (n : Int) = (n : Int) := by ring
      rw [hza, hb]
      have hgd := dtr_getD evs n (by simpa using h2)
      rw [show (dropTrailingReleases evs)[n] =
          (dropTrailingReleases evs).getD n (0, false) from
          (List.getD_eq_getElem _ _ h2).symm, ← hgd]
      rcases hv : evs.getD n (0, false) with ⟨k, b⟩
      cases b <;> simp [recOf, is_set, FLAG_pressed]
  rw [hrun, ← hs1]
  simp only [runEvs, List.foldl_cons, List.foldl_nil, stepEv]
  rw [hs2eq]
  rw [hs3]
  simp only [tdm_play_start]
  rw [← htdef, hplay]
  simp only [htf3, htf5, htf6]
  simpa [tdm_play_stop, tdm_clear_tokens] using hlist

/-- Witness for C3 at a concrete input: recording press 10 then release 10
into slot 0 of a 4-record region and playing back emits exactly the press,
which is the input sequence with its trailing release removed. -/
theorem c3_round_trip_emits_trimmed_witness :
    ((∀ e ∈ ([(10, true), (10, false)] : List (Nat × Bool)),
        tdm_is_control_key cfg4 e.1 = false ∧ cfg4.isLayerKey e.1 = false ∧
        cfg4.isValidKeyUser e.1 = true) ∧
      (∀ e0 ∈ ([(10, true), (10, false)] : List (Nat × Bool)).take 1, e0.2 = true) ∧
      ([(10, true), (10, false)] : List (Nat × Bool)).length ≤ cfg4.bufferSize) ∧
    (runEvs cfg4 (([Ev.key (TDM_RECORD cfg4) false] ++
        ([(10, true), (10, false)] : List (Nat × Bool)).map (fun e => Ev.key e.1 e.2)) ++
        [Ev.key (TDM_END cfg4) false, Ev.key (TDM_PLAY cfg4) false])
      (initState cfg4)).emitted = [(10, true)] :=
  ⟨⟨by decide, by decide, by decide⟩,
    (c3_round_trip_emits_trimmed cfg4 [(10, true), (10, false)]
      (by decide) (by decide) (by decide)).trans (by decide)⟩

end TDM
